import Mathlib

/-!
Verification of the SQL Server telemetry scraper
(receiver/sqlserverreceiver of the sincejune/opentelemetry-collector-contrib
tree) against its natural-language specification.

The Go sources contain several development variants of the scraper:
  * variant V1 : receiver/sqlserverreceiver/scraper.go, first copy
    (int64-valued counter cache, `val < 0` rejected);
  * variant V2 : receiver/sqlserverreceiver/scraper.go, second copy
    (float64-valued counter cache, `val <= 0` rejected);
  * variant P4 : src/unnamed/part_004 (int64-valued counter cache, identical
    to V1's `cacheAndDiff`, but a different emission loop in the
    QueryTextAndPlan mapper).

Every definition below is a shallow embedding of the corresponding Go
function; the comments name the Go symbol and variant it was translated
from.  Go `int64` is modelled as `Int` (overflow is irrelevant for the
properties at hand: all cached values are nonnegative and differences of
nonnegative int64 values do not overflow), Go `float64` is modelled as `ℚ`
(exact arithmetic; none of the settled properties depends on rounding).
-/

namespace SqlServer

/-! ## Small models of Go standard-library helpers -/

/-- One decimal digit. -/
def digitVal? (c : Char) : Option Nat :=
  if '0' ≤ c ∧ c ≤ '9' then some (c.toNat - '0'.toNat) else none

/-- All-decimal-digit parse of a nonempty character list. -/
def digitsToNat? : List Char → Option Nat
  | [] => none
  | [c] => digitVal? c
  | c :: cs =>
    match digitVal? c, digitsToNat? cs with
    | some d, some n => some (d * 10 ^ cs.length + n)
    | _, _ => none

/-- Model of Go `strconv.ParseInt(s, 10, 64)`: optional sign, one or more
decimal digits, value within the int64 range; every other input is an
error (`none`). -/
def goParseInt (s : String) : Option Int :=
  match s.data with
  | [] => none
  | c :: cs =>
    let (neg, ds) :=
      if c = '-' then (true, cs)
      else if c = '+' then (false, cs)
      else (false, c :: cs)
    match digitsToNat? ds with
    | none => none
    | some n =>
      let v : Int := if neg then -(n : Int) else (n : Int)
      if -(2 ^ 63) ≤ v ∧ v < 2 ^ 63 then some v else none

/-- Model of Go `strconv.ParseFloat(s, 64)` restricted to plain decimal
literals (optional sign, digits, optional fractional part).  The value is
kept exact as a rational; float64 rounding, exponents, `inf` and `NaN`
inputs are outside the modelled subset (no settled property exercises
them). -/
def goParseFloatQ (s : String) : Option ℚ :=
  match s.data with
  | [] => none
  | c :: cs =>
    let (neg, ds) :=
      if c = '-' then (true, cs)
      else if c = '+' then (false, cs)
      else (false, c :: cs)
    let intPart := ds.takeWhile fun c => decide ('0' ≤ c ∧ c ≤ '9')
    let rest := ds.drop intPart.length
    match rest with
    | [] =>
      match digitsToNat? intPart, intPart with
      | some ip, _ :: _ => some (if neg then -(ip : ℚ) else (ip : ℚ))
      | _, _ => none
    | '.' :: fs =>
      if fs.all (fun c => decide ('0' ≤ c ∧ c ≤ '9')) ∧ fs ≠ [] then
        match digitsToNat? intPart, digitsToNat? fs with
        | some ip, some fp =>
          let q : ℚ := (ip : ℚ) + (fp : ℚ) / ((10 : ℚ) ^ fs.length)
          some (if neg then -q else q)
        | none, some fp =>
          if intPart = [] then
            let q : ℚ := (fp : ℚ) / ((10 : ℚ) ^ fs.length)
            some (if neg then -q else q)
          else none
        | _, _ => none
      else none
    | _ => none

/-- Go float64 → int64 conversion (truncation toward zero), on the ℚ model. -/
def ratTruncToInt (q : ℚ) : Int :=
  if 0 ≤ q then q.floor else q.ceil

/-- Prefix test on character lists (model of Go `strings.HasPrefix`, which
compares byte prefixes; on valid UTF-8 this agrees with the character-level
comparison). -/
def listPfx : List Char → List Char → Bool
  | [], _ => true
  | _ :: _, [] => false
  | p :: ps, c :: cs => p == c && listPfx ps cs

/-- Model of Go `strings.HasPrefix s pfx`. -/
def goHasPfx (s pfx : String) : Bool :=
  listPfx pfx.data s.data

/-- Go `unicode.IsSpace`: the Latin-1 white space characters together with
the Unicode `White_Space` code points. -/
def goIsSpace (c : Char) : Bool :=
  c == ' ' || c == '\t' || c == '\n' || c == '\x0b' || c == '\x0c' ||
  c == '\r' || c == '\x85' || c == '\xa0' ||
  c.toNat == 0x1680 ||
  (0x2000 ≤ c.toNat && c.toNat ≤ 0x200a) ||
  c.toNat == 0x2028 || c.toNat == 0x2029 || c.toNat == 0x202f ||
  c.toNat == 0x205f || c.toNat == 0x3000

/-- Model of Go `bytes.TrimSpace` (on the string it represents): remove
leading and trailing white space. -/
def goTrimSpace (s : String) : String :=
  ⟨((s.data.dropWhile goIsSpace).reverse.dropWhile goIsSpace).reverse⟩

/-- UTF-8 bytes of one character (standard encoding). -/
def utf8Bytes (c : Char) : List Nat :=
  let n := c.toNat
  if n < 0x80 then [n]
  else if n < 0x800 then [0xc0 + n / 0x40, 0x80 + n % 0x40]
  else if n < 0x10000 then
    [0xe0 + n / 0x1000, 0x80 + n / 0x40 % 0x40, 0x80 + n % 0x40]
  else
    [0xf0 + n / 0x40000, 0x80 + n / 0x1000 % 0x40, 0x80 + n / 0x40 % 0x40,
     0x80 + n % 0x40]

/-- Lower-case hex digit of a nibble. -/
def hexDigit (n : Nat) : Char :=
  if n < 10 then Char.ofNat ('0'.toNat + n)
  else Char.ofNat ('a'.toNat + (n - 10))

/-- Model of Go `hex.EncodeToString([]byte(s))`: lower-case hex encoding of
the UTF-8 bytes of `s`. -/
def hexEncode (s : String) : String :=
  ⟨(s.data.flatMap utf8Bytes).flatMap fun b => [hexDigit (b / 16), hexDigit (b % 16)]⟩

/-! ## The LRU cache (hashicorp/golang-lru/v2)

Modelled from the library's documented behaviour: a bounded map with
least-recently-used eviction.  `entries` is kept in recency order, most
recent first; `Get` moves the accessed key to the front; `Add` inserts or
updates at the front and evicts the last (least recently used) entry when
the capacity is exceeded.  `lru.New` requires a positive capacity. -/

structure LRU (α : Type) where
  entries : List (String × α)
  cap : Nat
deriving DecidableEq

/-- An empty cache with the given capacity. -/
def LRU.ofCap (α : Type) (c : Nat) : LRU α := ⟨[], c⟩

/-- Value stored under a key (`none` when absent). -/
def LRU.lookup {α} (c : LRU α) (k : String) : Option α :=
  (c.entries.find? fun e => e.1 == k).map (·.2)

/-- Model of `Cache.Get`: returns the stored value and moves the key to the
front of the recency order. -/
def LRU.get {α} (c : LRU α) (k : String) : Option α × LRU α :=
  match c.entries.find? (fun e => e.1 == k) with
  | none => (none, c)
  | some e => (some e.2, ⟨(k, e.2) :: c.entries.eraseP (fun e => e.1 == k), c.cap⟩)

/-- Model of `Cache.Add`: insert or update at the front; evict the least
recently used entry when the length would exceed the capacity. -/
def LRU.add {α} (c : LRU α) (k : String) (v : α) : LRU α :=
  let l := (k, v) :: c.entries.eraseP (fun e => e.1 == k)
  ⟨if c.cap < l.length then l.dropLast else l, c.cap⟩

/-- The composite cache key built by `cacheAndDiff`:
`queryHash + "-" + queryPlanHash + "-" + column`. -/
def cacheKey (queryHash queryPlanHash column : String) : String :=
  queryHash ++ "-" ++ queryPlanHash ++ "-" ++ column

/-! ## cacheAndDiff

Variant V1 (scraper.go lines 562-586) and variant P4 (part_004 lines
844-868) are textually identical: int64 values, negative values rejected.
Variant V2 (scraper.go lines 1510-1534) uses float64 values and rejects
`val <= 0`.  The `s.cache == nil` guard is modelled by the `Option`
wrapper. -/

/-- Body of `cacheAndDiff` (V1/P4) after the nil-cache guard. -/
def cacheAndDiffCore (c : LRU Int) (queryHash queryPlanHash column : String)
    (val : Int) : LRU Int × Bool × Int :=
  if val < 0 then (c, false, 0)
  else
    match c.get (cacheKey queryHash queryPlanHash column) with
    | (none, c₁) => (c₁.add (cacheKey queryHash queryPlanHash column) val, false, val)
    | (some cached, c₁) =>
      if cached < val then
        (c₁.add (cacheKey queryHash queryPlanHash column) val, true, val - cached)
      else (c₁, true, 0)

/-- `cacheAndDiff`, variants V1 and P4 (identical): `nil` cache yields
`(false, 0)` (an error is logged), negative values are rejected, otherwise
the composite key is diffed against the cache. -/
def cacheAndDiff (cache : Option (LRU Int)) (queryHash queryPlanHash column : String)
    (val : Int) : Option (LRU Int) × Bool × Int :=
  match cache with
  | none => (none, false, 0)
  | some c =>
    let r := cacheAndDiffCore c queryHash queryPlanHash column val
    (some r.1, r.2)

/-- Body of the float64 `cacheAndDiff` (V2) after the nil-cache guard;
note the guard is `val <= 0`, not `val < 0`. -/
def cacheAndDiffFCore (c : LRU ℚ) (queryHash queryPlanHash column : String)
    (val : ℚ) : LRU ℚ × Bool × ℚ :=
  if val ≤ 0 then (c, false, 0)
  else
    match c.get (cacheKey queryHash queryPlanHash column) with
    | (none, c₁) => (c₁.add (cacheKey queryHash queryPlanHash column) val, false, val)
    | (some cached, c₁) =>
      if cached < val then
        (c₁.add (cacheKey queryHash queryPlanHash column) val, true, val - cached)
      else (c₁, true, 0)

/-- `cacheAndDiff`, variant V2 (scraper.go lines 1510-1534). -/
def cacheAndDiffF (cache : Option (LRU ℚ)) (queryHash queryPlanHash column : String)
    (val : ℚ) : Option (LRU ℚ) × Bool × ℚ :=
  match cache with
  | none => (none, false, 0)
  | some c =>
    let r := cacheAndDiffFCore c queryHash queryPlanHash column val
    (some r.1, r.2)

/-! ## Lemmas about the LRU model -/

theorem find?_eraseP_of_imp {α : Type} {p q : α → Bool}
    (h : ∀ x, p x = true → q x = false) :
    ∀ l : List α, (l.eraseP p).find? q = l.find? q := by
  intro l
  induction l with
  | nil => rfl
  | cons a l ih =>
    by_cases hp : p a = true
    · rw [List.eraseP_cons, hp, cond_true,
        List.find?_cons_of_neg _ (by simp [h a hp])]
    · rw [List.eraseP_cons, Bool.not_eq_true] at *
      rw [hp, cond_false]
      by_cases hq : q a = true
      · rw [List.find?_cons_of_pos _ hq, List.find?_cons_of_pos _ hq]
      · rw [List.find?_cons_of_neg _ hq, List.find?_cons_of_neg _ hq, ih]

theorem find?_dropLast_some {α : Type} {q : α → Bool} {l : List α} {a : α}
    (h : l.dropLast.find? q = some a) : l.find? q = some a := by
  have hne : l ≠ [] := by
    intro he
    rw [he] at h
    simp at h
  rw [← List.dropLast_append_getLast hne, List.find?_append, h]
  rfl

namespace LRU

variable {α : Type}

theorem find?_cons_self {l : List (String × α)} {k : String} {v : α} :
    (((k, v) :: l).find? fun e => e.1 == k) = some (k, v) := by
  rw [List.find?_cons]
  simp

theorem find?_cons_ne {l : List (String × α)} {k k' : String} {v : α}
    (h : k' ≠ k) :
    (((k, v) :: l).find? fun e => e.1 == k') = l.find? fun e => e.1 == k' := by
  rw [List.find?_cons]
  have hb : (((k, v) : String × α).1 == k') = false := by
    simp [Ne.symm h]
  rw [hb]

theorem find?_eraseP_key {l : List (String × α)} {k k' : String} (h : k' ≠ k) :
    ((l.eraseP fun e => e.1 == k).find? fun e => e.1 == k')
      = l.find? fun e => e.1 == k' := by
  refine @find?_eraseP_of_imp _ (fun e => e.1 == k) (fun e => e.1 == k') ?_ l
  intro x hx
  simp only [beq_iff_eq] at hx ⊢
  rw [hx]
  simp [Ne.symm h]

theorem get_cap (c : LRU α) (k : String) : ((c.get k).2).cap = c.cap := by
  unfold LRU.get
  cases c.entries.find? (fun e => e.1 == k) <;> rfl

theorem get_eq_none {c : LRU α} {k : String} (h : c.lookup k = none) :
    c.get k = (none, c) := by
  unfold LRU.get
  unfold LRU.lookup at h
  cases hf : c.entries.find? (fun e => e.1 == k) with
  | none => rfl
  | some e => rw [hf] at h; simp at h

theorem get_eq_some {c : LRU α} {k : String} {v : α} (h : c.lookup k = some v) :
    (c.get k).1 = some v ∧ ∀ k', ((c.get k).2).lookup k' = c.lookup k' := by
  unfold LRU.lookup at h
  cases hf : c.entries.find? (fun e => e.1 == k) with
  | none => rw [hf] at h; simp at h
  | some e =>
    rw [hf] at h
    have hv : e.2 = v := by simpa using h
    constructor
    · unfold LRU.get
      rw [hf]
      simp [hv]
    · intro k'
      unfold LRU.get
      rw [hf]
      simp only
      unfold LRU.lookup
      simp only
      by_cases hk : k' = k
      · subst hk
        rw [find?_cons_self, hf]
        simp [hv]
      · rw [find?_cons_ne hk, find?_eraseP_key hk]

theorem lookup_add_of_lookup_some {c : LRU α} {k k' : String} {v w : α}
    (h : (c.add k v).lookup k' = some w) :
    (k' = k ∧ w = v) ∨ (k' ≠ k ∧ c.lookup k' = some w) := by
  unfold LRU.add LRU.lookup at h
  simp only at h
  by_cases hk : k' = k
  · left
    refine ⟨hk, ?_⟩
    subst hk
    by_cases hcap : c.cap < ((k', v) :: c.entries.eraseP (fun e => e.1 == k')).length
    · rw [if_pos hcap] at h
      cases he : c.entries.eraseP (fun e => e.1 == k') with
      | nil => rw [he] at h; simp [List.dropLast] at h
      | cons e es =>
        rw [he, List.dropLast_cons₂, find?_cons_self] at h
        simpa using h.symm
    · rw [if_neg hcap, find?_cons_self] at h
      simpa using h.symm
  · right
    refine ⟨hk, ?_⟩
    unfold LRU.lookup
    have hmain :
        (((k, v) :: c.entries.eraseP (fun e => e.1 == k)).find?
          (fun e => e.1 == k')).map (·.2) = some w →
        (c.entries.find? (fun e => e.1 == k')).map (·.2) = some w := by
      intro hh
      rw [find?_cons_ne hk, find?_eraseP_key hk] at hh
      exact hh
    by_cases hcap : c.cap < ((k, v) :: c.entries.eraseP (fun e => e.1 == k)).length
    · rw [if_pos hcap] at h
      cases hf : (((k, v) :: c.entries.eraseP (fun e => e.1 == k)).dropLast.find?
          (fun e => e.1 == k')) with
      | none => rw [hf] at h; simp at h
      | some e =>
        rw [hf] at h
        exact hmain (by rw [find?_dropLast_some hf]; exact h)
    · rw [if_neg hcap] at h
      exact hmain h

theorem lookup_add_self {c : LRU α} {k : String} {v : α}
    (hcap : 0 < c.cap) :
    (c.add k v).lookup k = some v := by
  unfold LRU.add LRU.lookup
  simp only
  by_cases hl : c.cap < ((k, v) :: c.entries.eraseP (fun e => e.1 == k)).length
  · rw [if_pos hl]
    cases he : c.entries.eraseP (fun e => e.1 == k) with
    | nil =>
      exfalso
      rw [he] at hl
      simp at hl
      omega
    | cons e es =>
      rw [List.dropLast_cons₂, find?_cons_self]
      rfl
  · rw [if_neg hl, find?_cons_self]
    rfl

/-- Updating a key that is present (so that the erase step shrinks the list
back to its original length) does not trigger eviction; the new value is
stored. -/
theorem lookup_add_of_mem {c : LRU α} {k : String} {v w : α}
    (hWF : c.entries.length ≤ c.cap) (hmem : c.lookup k = some w) :
    (c.add k v).lookup k = some v := by
  unfold LRU.add LRU.lookup
  simp only
  have hhead : ((fun (e : String × α) => e.1 == k) (k, v)) = true := by simp
  have hfind : ∃ e, c.entries.find? (fun e => e.1 == k) = some e := by
    unfold LRU.lookup at hmem
    cases hf : c.entries.find? (fun e => e.1 == k) with
    | none => rw [hf] at hmem; simp at hmem
    | some e => exact ⟨e, rfl⟩
  obtain ⟨e, he⟩ := hfind
  have hlen : (c.entries.eraseP (fun e => e.1 == k)).length = c.entries.length - 1 :=
    List.length_eraseP_of_mem
      (@List.mem_of_find?_eq_some _ (fun e => e.1 == k) e c.entries he)
      (@List.find?_some _ (fun e => e.1 == k) e c.entries he)
  have hpos : 0 < c.entries.length := by
    cases hent : c.entries with
    | nil => rw [hent] at he; simp at he
    | cons a l => simp [hent]
  have hnl : ¬ c.cap < ((k, v) :: c.entries.eraseP (fun e => e.1 == k)).length := by
    simp only [List.length_cons, hlen]
    omega
  rw [if_neg hnl, find?_cons_self]
  rfl

end LRU

/-! ## Per-call characterization of cacheAndDiff -/

theorem cacheAndDiffCore_neg {c : LRU Int} {qh ph col : String} {v : Int}
    (h : v < 0) : cacheAndDiffCore c qh ph col v = (c, false, 0) := by
  unfold cacheAndDiffCore
  rw [if_pos h]

theorem cacheAndDiffCore_absent {c : LRU Int} {qh ph col : String} {v : Int}
    (hv : 0 ≤ v) (h : c.lookup (cacheKey qh ph col) = none) :
    cacheAndDiffCore c qh ph col v = (c.add (cacheKey qh ph col) v, false, v) := by
  unfold cacheAndDiffCore
  rw [if_neg (not_lt.mpr hv), LRU.get_eq_none h]

theorem cacheAndDiffCore_present {c : LRU Int} {qh ph col : String} {v cv : Int}
    (hv : 0 ≤ v) (h : c.lookup (cacheKey qh ph col) = some cv) :
    ∃ c₁ : LRU Int, (∀ k, c₁.lookup k = c.lookup k) ∧ c₁.cap = c.cap ∧
      cacheAndDiffCore c qh ph col v =
        if cv < v then (c₁.add (cacheKey qh ph col) v, true, v - cv)
        else (c₁, true, 0) := by
  obtain ⟨h1, h2⟩ := LRU.get_eq_some h
  have hcap := LRU.get_cap c (cacheKey qh ph col)
  rcases hget : c.get (cacheKey qh ph col) with ⟨o, c₁⟩
  rw [hget] at h1 hcap
  change o = some cv at h1
  subst h1
  refine ⟨c₁, ?_, hcap, ?_⟩
  · intro k'
    have hk := h2 k'
    rw [hget] at hk
    exact hk
  · unfold cacheAndDiffCore
    rw [if_neg (not_lt.mpr hv), hget]

theorem cacheAndDiffCore_lookup_mono {c : LRU Int} {qh ph col : String} {v : Int}
    {k : String} {v₀ v₁ : Int}
    (h₀ : c.lookup k = some v₀)
    (h₁ : ((cacheAndDiffCore c qh ph col v).1).lookup k = some v₁) :
    v₀ ≤ v₁ := by
  by_cases hneg : v < 0
  · rw [cacheAndDiffCore_neg hneg] at h₁
    simp only at h₁
    rw [h₀] at h₁
    injection h₁ with h₁
    omega
  · have hv : 0 ≤ v := by omega
    cases hkey : c.lookup (cacheKey qh ph col) with
    | none =>
      rw [cacheAndDiffCore_absent hv hkey] at h₁
      simp only at h₁
      rcases LRU.lookup_add_of_lookup_some h₁ with ⟨hk, _⟩ | ⟨_, hk⟩
      · rw [hk] at h₀
        rw [h₀] at hkey
        simp at hkey
      · rw [h₀] at hk
        injection hk with hk
        omega
    | some cv =>
      obtain ⟨c₁, hc₁, _, heq⟩ := cacheAndDiffCore_present hv hkey
      rw [heq] at h₁
      by_cases hlt : cv < v
      · rw [if_pos hlt] at h₁
        simp only at h₁
        rcases LRU.lookup_add_of_lookup_some h₁ with ⟨hk, hw⟩ | ⟨_, hk⟩
        · subst hk
          rw [h₀] at hkey
          injection hkey with hkey
          omega
        · rw [hc₁, h₀] at hk
          injection hk with hk
          omega
      · rw [if_neg hlt] at h₁
        simp only at h₁
        rw [hc₁, h₀] at h₁
        injection h₁ with h₁
        omega

/-- The ℚ analogues for variant V2. -/
theorem cacheAndDiffFCore_nonpos {c : LRU ℚ} {qh ph col : String} {v : ℚ}
    (h : v ≤ 0) : cacheAndDiffFCore c qh ph col v = (c, false, 0) := by
  unfold cacheAndDiffFCore
  rw [if_pos h]

theorem cacheAndDiffFCore_absent {c : LRU ℚ} {qh ph col : String} {v : ℚ}
    (hv : 0 < v) (h : c.lookup (cacheKey qh ph col) = none) :
    cacheAndDiffFCore c qh ph col v = (c.add (cacheKey qh ph col) v, false, v) := by
  unfold cacheAndDiffFCore
  rw [if_neg (not_le.mpr hv), LRU.get_eq_none h]

theorem cacheAndDiffFCore_present {c : LRU ℚ} {qh ph col : String} {v cv : ℚ}
    (hv : 0 < v) (h : c.lookup (cacheKey qh ph col) = some cv) :
    ∃ c₁ : LRU ℚ, (∀ k, c₁.lookup k = c.lookup k) ∧ c₁.cap = c.cap ∧
      cacheAndDiffFCore c qh ph col v =
        if cv < v then (c₁.add (cacheKey qh ph col) v, true, v - cv)
        else (c₁, true, 0) := by
  obtain ⟨h1, h2⟩ := LRU.get_eq_some h
  have hcap := LRU.get_cap c (cacheKey qh ph col)
  rcases hget : c.get (cacheKey qh ph col) with ⟨o, c₁⟩
  rw [hget] at h1 hcap
  change o = some cv at h1
  subst h1
  refine ⟨c₁, ?_, hcap, ?_⟩
  · intro k'
    have hk := h2 k'
    rw [hget] at hk
    exact hk
  · unfold cacheAndDiffFCore
    rw [if_neg (not_le.mpr hv), hget]

theorem cacheAndDiff_some (c : LRU Int) (qh ph col : String) (v : Int) :
    cacheAndDiff (some c) qh ph col v
      = (some (cacheAndDiffCore c qh ph col v).1,
         (cacheAndDiffCore c qh ph col v).2) := rfl

theorem cacheAndDiffF_some (c : LRU ℚ) (qh ph col : String) (v : ℚ) :
    cacheAndDiffF (some c) qh ph col v
      = (some (cacheAndDiffFCore c qh ph col v).1,
         (cacheAndDiffFCore c qh ph col v).2) := rfl

/-- `cacheAndDiff` calls applied in sequence (each tuple is
`(queryHash, queryPlanHash, column, value)`), keeping only the cache. -/
def runCalls (c : LRU Int) : List (String × String × String × Int) → LRU Int
  | [] => c
  | q :: qs => runCalls (cacheAndDiffCore c q.1 q.2.1 q.2.2.1 q.2.2.2).1 qs

/-- **C1 (amended).**  Per-call semantics of `cacheAndDiff` on an
initialized cache.  The int64 variant (scraper.go lines 562-586, identical
in part_004) behaves exactly as the claim states: a negative `v` returns
`(false, 0)` leaving the cache untouched, an absent key inserts `v` and
returns `(false, v)`, a present key with cached value `cv` returns
`(true, v - cv)` and stores `v` when `v > cv`, and returns `(true, 0)`
leaving the stored mapping unchanged when `v ≤ cv`.  The float64 variant
(scraper.go lines 1510-1534) differs at `v = 0` only: it treats `v = 0`
like a negative input, returning `(false, 0)` and leaving the cache
untouched even when the key is present (where the claim predicts
`(true, 0)`) or absent (where the claim predicts insertion). -/
theorem cacheAndDiff_per_call_semantics
    (c : LRU Int) (qh ph col : String) (v : Int)
    (cq : LRU ℚ) (w : ℚ)
    (hcap : 0 < c.cap) (hcapq : 0 < cq.cap) :
    ((v < 0 → cacheAndDiff (some c) qh ph col v = (some c, false, 0)) ∧
     (0 ≤ v → c.lookup (cacheKey qh ph col) = none →
       (cacheAndDiff (some c) qh ph col v).2 = (false, v) ∧
       ∃ c', (cacheAndDiff (some c) qh ph col v).1 = some c' ∧
         c'.lookup (cacheKey qh ph col) = some v) ∧
     (∀ cv, 0 ≤ v → c.lookup (cacheKey qh ph col) = some cv →
       (cacheAndDiff (some c) qh ph col v).2
          = (true, if cv < v then v - cv else 0) ∧
       ∃ c', (cacheAndDiff (some c) qh ph col v).1 = some c' ∧
         (cv < v → c'.lookup (cacheKey qh ph col) = some v) ∧
         (v ≤ cv → ∀ k, c'.lookup k = c.lookup k)))
    ∧
    ((w ≤ 0 → cacheAndDiffF (some cq) qh ph col w = (some cq, false, 0)) ∧
     (0 < w → cq.lookup (cacheKey qh ph col) = none →
       (cacheAndDiffF (some cq) qh ph col w).2 = (false, w) ∧
       ∃ c', (cacheAndDiffF (some cq) qh ph col w).1 = some c' ∧
         c'.lookup (cacheKey qh ph col) = some w) ∧
     (∀ cw, 0 < w → cq.lookup (cacheKey qh ph col) = some cw →
       (cacheAndDiffF (some cq) qh ph col w).2
          = (true, if cw < w then w - cw else 0) ∧
       ∃ c', (cacheAndDiffF (some cq) qh ph col w).1 = some c' ∧
         (cw < w → c'.lookup (cacheKey qh ph col) = some w) ∧
         (w ≤ cw → ∀ k, c'.lookup k = cq.lookup k))) := by
  refine ⟨⟨?_, ?_, ?_⟩, ?_, ?_, ?_⟩
  · intro hneg
    rw [cacheAndDiff_some, cacheAndDiffCore_neg hneg]
  · intro hv habs
    rw [cacheAndDiff_some, cacheAndDiffCore_absent hv habs]
    exact ⟨rfl, _, rfl, LRU.lookup_add_self hcap⟩
  · intro cv hv hpres
    obtain ⟨c₁, hmap, hcapeq, heq⟩ := cacheAndDiffCore_present hv hpres
    rw [cacheAndDiff_some, heq]
    by_cases hlt : cv < v
    · rw [if_pos hlt]
      refine ⟨by rw [if_pos hlt], _, rfl, fun _ => ?_, fun hle => absurd hlt (not_lt.mpr hle)⟩
      exact LRU.lookup_add_self (by rw [hcapeq]; exact hcap)
    · rw [if_neg hlt]
      exact ⟨by rw [if_neg hlt], _, rfl, fun hc => absurd hc hlt, fun _ => hmap⟩
  · intro hneg
    rw [cacheAndDiffF_some, cacheAndDiffFCore_nonpos hneg]
  · intro hv habs
    rw [cacheAndDiffF_some, cacheAndDiffFCore_absent hv habs]
    exact ⟨rfl, _, rfl, LRU.lookup_add_self hcapq⟩
  · intro cw hv hpres
    obtain ⟨c₁, hmap, hcapeq, heq⟩ := cacheAndDiffFCore_present hv hpres
    rw [cacheAndDiffF_some, heq]
    by_cases hlt : cw < w
    · rw [if_pos hlt]
      refine ⟨by rw [if_pos hlt], _, rfl, fun _ => ?_, fun hle => absurd hlt (not_lt.mpr hle)⟩
      exact LRU.lookup_add_self (by rw [hcapeq]; exact hcapq)
    · rw [if_neg hlt]
      exact ⟨by rw [if_neg hlt], _, rfl, fun hc => absurd hc hlt, fun _ => hmap⟩

/-- Witness for `cacheAndDiff_per_call_semantics` at concrete inputs. -/
theorem cacheAndDiff_per_call_semantics_witness :
    (cacheAndDiff (some (LRU.ofCap Int 8)) "q" "p" "c" 5).2 = (false, 5) ∧
    cacheAndDiffF (some (⟨[("q-p-c", 5)], 8⟩ : LRU ℚ)) "q" "p" "c" (-1)
      = (some ⟨[("q-p-c", 5)], 8⟩, false, 0) := by
  refine ⟨((cacheAndDiff_per_call_semantics (LRU.ofCap Int 8) "q" "p" "c" 5
      (LRU.ofCap ℚ 8) 0 (by decide) (by decide)).1.2.1
      (by decide) (by decide)).1, ?_⟩
  exact (cacheAndDiff_per_call_semantics (LRU.ofCap Int 8) "q" "p" "c" 5
      (⟨[("q-p-c", 5)], 8⟩ : LRU ℚ) (-1) (by decide) (by decide)).2.1 (by norm_num)

/-- **C1 (counterexample).**  The float64 `cacheAndDiff` (scraper.go lines
1510-1534) run on an initialized cache: the first call inserts the key
`"q-p-c"` with value 5; the second call with `v = 0` on the now-present key
returns `(false, 0)` and leaves the cache untouched, whereas the claim
(`v ≤ c` with the key present) predicts `(true, 0)`. -/
theorem cacheAndDiffF_zero_on_cached_key_counterexample :
    cacheAndDiffF (some (LRU.ofCap ℚ 16)) "q" "p" "c" 5
      = (some ⟨[("q-p-c", 5)], 16⟩, false, 5) ∧
    LRU.lookup ⟨[("q-p-c", (5 : ℚ))], 16⟩ "q-p-c" = some 5 ∧
    cacheAndDiffF (some (⟨[("q-p-c", 5)], 16⟩ : LRU ℚ)) "q" "p" "c" 0
      = (some ⟨[("q-p-c", 5)], 16⟩, false, 0) := by
  refine ⟨?_, by decide, ?_⟩ <;> decide

/-- **C10.**  Invariants of the int64 `cacheAndDiff` (scraper.go lines
562-586, part_004 lines 844-868) on an initialized cache:
1. per call, a key present before and after the call never decreases;
2. the returned diff is nonnegative for nonnegative inputs;
3. a first observation (key absent) returns `(false, v)`;
4. a subsequent observation (key present with `cv`) returns
   `(true, v - cv)` when `v > cv` (a strictly positive diff) and
   `(true, 0)` otherwise;
5. across any sequence of calls during which the key stays resident
   (it is never evicted by the LRU), its stored value never decreases. -/
theorem cacheAndDiff_monotone_invariants :
    (∀ (c : LRU Int) (qh ph col : String) (v : Int) (k : String) (v₀ v₁ : Int),
        c.lookup k = some v₀ →
        ((cacheAndDiffCore c qh ph col v).1).lookup k = some v₁ → v₀ ≤ v₁)
    ∧ (∀ (c : LRU Int) (qh ph col : String) (v : Int), 0 ≤ v →
        0 ≤ (cacheAndDiffCore c qh ph col v).2.2)
    ∧ (∀ (c : LRU Int) (qh ph col : String) (v : Int), 0 ≤ v →
        c.lookup (cacheKey qh ph col) = none →
        (cacheAndDiffCore c qh ph col v).2 = (false, v))
    ∧ (∀ (c : LRU Int) (qh ph col : String) (v cv : Int), 0 ≤ v →
        c.lookup (cacheKey qh ph col) = some cv →
        (cacheAndDiffCore c qh ph col v).2
          = (true, if cv < v then v - cv else 0) ∧
        (cv < v → 0 < (cacheAndDiffCore c qh ph col v).2.2))
    ∧ (∀ (calls : List (String × String × String × Int)) (c : LRU Int) (k : String),
        (∀ pre, pre <+: calls → ((runCalls c pre).lookup k).isSome) →
        ∀ v₀ v₁, c.lookup k = some v₀ →
          (runCalls c calls).lookup k = some v₁ → v₀ ≤ v₁) := by
  have hmono : ∀ (c : LRU Int) (qh ph col : String) (v : Int) (k : String) (v₀ v₁ : Int),
      c.lookup k = some v₀ →
      ((cacheAndDiffCore c qh ph col v).1).lookup k = some v₁ → v₀ ≤ v₁ :=
    fun c qh ph col v k v₀ v₁ h₀ h₁ => cacheAndDiffCore_lookup_mono h₀ h₁
  refine ⟨hmono, ?_, ?_, ?_, ?_⟩
  · intro c qh ph col v hv
    by_cases hkey : c.lookup (cacheKey qh ph col) = none
    · rw [cacheAndDiffCore_absent hv hkey]
      exact hv
    · obtain ⟨cv, hcv⟩ := Option.ne_none_iff_exists'.mp hkey
      obtain ⟨c₁, _, _, heq⟩ := cacheAndDiffCore_present hv hcv
      rw [heq]
      by_cases hlt : cv < v
      · rw [if_pos hlt]
        simp only
        omega
      · rw [if_neg hlt]
  · intro c qh ph col v hv habs
    rw [cacheAndDiffCore_absent hv habs]
  · intro c qh ph col v cv hv hpres
    obtain ⟨c₁, _, _, heq⟩ := cacheAndDiffCore_present hv hpres
    rw [heq]
    by_cases hlt : cv < v
    · rw [if_pos hlt]
      exact ⟨by rw [if_pos hlt], fun _ => by simp only; omega⟩
    · rw [if_neg hlt]
      exact ⟨by rw [if_neg hlt], fun hc => absurd hc hlt⟩
  · intro calls
    induction calls with
    | nil =>
      intro c k _ v₀ v₁ h₀ h₁
      unfold runCalls at h₁
      rw [h₀] at h₁
      injection h₁ with h₁
      omega
    | cons q qs ih =>
      intro c k hres v₀ v₁ h₀ h₁
      have hq : ((runCalls c [q]).lookup k).isSome := hres [q] ⟨qs, rfl⟩
      obtain ⟨w, hw⟩ := Option.isSome_iff_exists.mp hq
      have hstep : (runCalls c [q]) = (cacheAndDiffCore c q.1 q.2.1 q.2.2.1 q.2.2.2).1 := rfl
      rw [hstep] at hw
      have h₀w : v₀ ≤ w := hmono c q.1 q.2.1 q.2.2.1 q.2.2.2 k v₀ w h₀ hw
      have hres' : ∀ pre, pre <+: qs →
          ((runCalls (cacheAndDiffCore c q.1 q.2.1 q.2.2.1 q.2.2.2).1 pre).lookup k).isSome := by
        intro pre ⟨t, ht⟩
        exact hres (q :: pre) ⟨t, by rw [List.cons_append, ht]⟩
      have hW : w ≤ v₁ :=
        ih (cacheAndDiffCore c q.1 q.2.1 q.2.2.1 q.2.2.2).1 k hres' w v₁ hw h₁
      omega

/-- Witness for `cacheAndDiff_monotone_invariants` at concrete inputs. -/
theorem cacheAndDiff_monotone_invariants_witness :
    (cacheAndDiffCore ⟨[("q-p-c", 5)], 8⟩ "q" "p" "c" 7).2
      = (true, if (5 : Int) < 7 then 7 - 5 else 0) ∧
    (cacheAndDiffCore (LRU.ofCap Int 8) "q" "p" "c" 7).2 = (false, 7) := by
  constructor
  · exact ((cacheAndDiff_monotone_invariants.2.2.2.1 ⟨[("q-p-c", 5)], 8⟩
      "q" "p" "c" 7 5 (by decide) (by decide))).1
  · exact cacheAndDiff_monotone_invariants.2.2.1 (LRU.ofCap Int 8)
      "q" "p" "c" 7 (by decide) (by decide)

/-! ## Wait-type classification (C7)

`getWaitCategory` (scraper.go lines 1570-1606, part_004 lines 907-943)
consults the `detailedWaitTypes` / `waitTypes` tables first; those tables
are not part of the provided sources, so they enter the model as
parameters (`detailed` maps a wait type to its code when the table has an
exact entry, `waitT` maps a code to its category name). -/

/-- `anyOf` (scraper.go lines 1557-1568): whether `f s v` holds for some
`v` among `vals` (`false` for the empty list, as in the source's explicit
early return). -/
def anyOf (s : String) (f : String → String → Bool) (vals : List String) : Bool :=
  vals.any fun v => f s v

/-- `getWaitCategory` with the detailed-wait-type tables as parameters; the
switch mirrors the source's case order. -/
def getWaitCategory (detailed : String → Option Nat) (waitT : Nat → String)
    (s : String) : Nat × String :=
  match detailed s with
  | some code => (code, waitT code)
  | none =>
    if goHasPfx s "LOCK_M_" then (3, "Lock")
    else if goHasPfx s "LATCH_" then (4, "Latch")
    else if goHasPfx s "PAGELATCH_" then (5, "Buffer Latch")
    else if goHasPfx s "PAGEIOLATCH_" then (6, "Buffer IO")
    else if anyOf s goHasPfx ["CLR", "SQLCLR"] then (8, "SQL CLR")
    else if goHasPfx s "DBMIRROR" then (9, "Mirroring")
    else if anyOf s goHasPfx ["XACT", "DTC", "TRAN_MARKLATCH_", "MSQL_XACT_"] then
      (10, "Transaction")
    else if goHasPfx s "SLEEP_" then (11, "Idle")
    else if goHasPfx s "PREEMPTIVE_" then (12, "Preemptive")
    else if goHasPfx s "BROKER_" && s != "BROKER_RECEIVE_WAITFOR" then
      (13, "Service Broker")
    else if anyOf s goHasPfx ["HT", "BMP", "BP"] then (16, "Parallelism")
    else if anyOf s goHasPfx ["SE_REPL_", "REPL_", "PWAIT_HADR_"]
        || (goHasPfx s "HADR_" && s != "HADR_THROTTLE_LOG_RATE_GOVERNOR") then
      (22, "Replication")
    else if goHasPfx s "RBIO_RG_" then (23, "Log Rate Governor")
    else (0, "Unknown")

/-- The prefix-rule classifier exactly as the specification words it
(§4.5.6): same rules, but with the Buffer Latch / Buffer IO rules listed
before the Latch rule.  This definition follows the spec's words and is
compared against the source's `getWaitCategory`. -/
def specWaitClassify (s : String) : Nat × String :=
  if goHasPfx s "LOCK_M_" then (3, "Lock")
  else if goHasPfx s "PAGELATCH_" then (5, "Buffer Latch")
  else if goHasPfx s "PAGEIOLATCH_" then (6, "Buffer IO")
  else if goHasPfx s "LATCH_" then (4, "Latch")
  else if anyOf s goHasPfx ["CLR", "SQLCLR"] then (8, "SQL CLR")
  else if goHasPfx s "DBMIRROR" then (9, "Mirroring")
  else if anyOf s goHasPfx ["XACT", "DTC", "TRAN_MARKLATCH_", "MSQL_XACT_"] then
    (10, "Transaction")
  else if goHasPfx s "SLEEP_" then (11, "Idle")
  else if goHasPfx s "PREEMPTIVE_" then (12, "Preemptive")
  else if goHasPfx s "BROKER_" && s != "BROKER_RECEIVE_WAITFOR" then
    (13, "Service Broker")
  else if anyOf s goHasPfx ["HT", "BMP", "BP"] then (16, "Parallelism")
  else if anyOf s goHasPfx ["SE_REPL_", "REPL_", "PWAIT_HADR_"]
      || (goHasPfx s "HADR_" && s != "HADR_THROTTLE_LOG_RATE_GOVERNOR") then
    (22, "Replication")
  else if goHasPfx s "RBIO_RG_" then (23, "Log Rate Governor")
  else (0, "Unknown")

/-- Whether some prefix rule of §4.5.6 applies to `s`. -/
def specRuleApplies (s : String) : Bool :=
  goHasPfx s "LOCK_M_" || goHasPfx s "PAGELATCH_" || goHasPfx s "PAGEIOLATCH_" ||
  goHasPfx s "LATCH_" || anyOf s goHasPfx ["CLR", "SQLCLR"] ||
  goHasPfx s "DBMIRROR" ||
  anyOf s goHasPfx ["XACT", "DTC", "TRAN_MARKLATCH_", "MSQL_XACT_"] ||
  goHasPfx s "SLEEP_" || goHasPfx s "PREEMPTIVE_" ||
  (goHasPfx s "BROKER_" && s != "BROKER_RECEIVE_WAITFOR") ||
  anyOf s goHasPfx ["HT", "BMP", "BP"] ||
  (anyOf s goHasPfx ["SE_REPL_", "REPL_", "PWAIT_HADR_"]
    || (goHasPfx s "HADR_" && s != "HADR_THROTTLE_LOG_RATE_GOVERNOR")) ||
  goHasPfx s "RBIO_RG_"

theorem listPfx_both {p : List Char} :
    ∀ {q l : List Char}, listPfx p l = true → listPfx q l = true →
      listPfx p q = true ∨ listPfx q p = true := by
  induction p with
  | nil => intro q l _ _; left; rfl
  | cons a as ih =>
    intro q l hp hq
    cases q with
    | nil => right; rfl
    | cons b bs =>
      cases l with
      | nil => simp [listPfx] at hp
      | cons c cs =>
        simp only [listPfx, Bool.and_eq_true, beq_iff_eq] at hp hq
        obtain ⟨hac, hp'⟩ := hp
        obtain ⟨hbc, hq'⟩ := hq
        rcases ih hp' hq' with hc | hc
        · left
          simp only [listPfx, Bool.and_eq_true, beq_iff_eq]
          exact ⟨hac.trans hbc.symm, hc⟩
        · right
          simp only [listPfx, Bool.and_eq_true, beq_iff_eq]
          exact ⟨hbc.trans hac.symm, hc⟩

/-- Two prefixes none of which is a prefix of the other can never both
apply to the same string. -/
theorem hasPfx_excl {s p q : String}
    (hpq : listPfx p.data q.data = false) (hqp : listPfx q.data p.data = false)
    (h : goHasPfx s p = true) : goHasPfx s q = false := by
  unfold goHasPfx at h ⊢
  cases ht : listPfx q.data s.data
  · rfl
  · rcases listPfx_both h ht with hc | hc
    · rw [hc] at hpq
      exact absurd hpq (by simp)
    · rw [hc] at hqp
      exact absurd hqp (by simp)

/-- **C7.**  The wait-type classifier is total and deterministic (it is a
function); for every wait type without an exact entry in the detailed
table, it returns the bucket of the first applicable prefix rule in the
spec's stated order; in particular `PAGEIOLATCH_SH ↦ (6, "Buffer IO")`,
`HADR_THROTTLE_LOG_RATE_GOVERNOR ↦ (0, "Unknown")`,
`HADR_SYNC_COMMIT ↦ (22, "Replication")`, and any string matching no
prefix rule yields `(0, "Unknown")`. -/
theorem getWaitCategory_matches_spec
    (detailed : String → Option Nat) (waitT : Nat → String) :
    (∀ s, detailed s = none →
        getWaitCategory detailed waitT s = specWaitClassify s) ∧
    (detailed "PAGEIOLATCH_SH" = none →
        getWaitCategory detailed waitT "PAGEIOLATCH_SH" = (6, "Buffer IO")) ∧
    (detailed "HADR_THROTTLE_LOG_RATE_GOVERNOR" = none →
        getWaitCategory detailed waitT "HADR_THROTTLE_LOG_RATE_GOVERNOR"
          = (0, "Unknown")) ∧
    (detailed "HADR_SYNC_COMMIT" = none →
        getWaitCategory detailed waitT "HADR_SYNC_COMMIT" = (22, "Replication")) ∧
    (∀ s, detailed s = none → specRuleApplies s = false →
        getWaitCategory detailed waitT s = (0, "Unknown")) := by
  have hgen : ∀ s, detailed s = none →
      getWaitCategory detailed waitT s = specWaitClassify s := by
    intro s hd
    unfold getWaitCategory specWaitClassify
    rw [hd]
    by_cases h1 : goHasPfx s "LOCK_M_"
    · simp [h1]
    · by_cases hL : goHasPfx s "LATCH_"
      · have hPL : goHasPfx s "PAGELATCH_" = false :=
          hasPfx_excl (by decide) (by decide) hL
        have hPIO : goHasPfx s "PAGEIOLATCH_" = false :=
          hasPfx_excl (by decide) (by decide) hL
        simp [h1, hL, hPL, hPIO]
      · by_cases hPL : goHasPfx s "PAGELATCH_"
        · have hPIO : goHasPfx s "PAGEIOLATCH_" = false :=
            hasPfx_excl (by decide) (by decide) hPL
          simp [h1, hL, hPL, hPIO]
        · by_cases hPIO : goHasPfx s "PAGEIOLATCH_"
          · simp [h1, hL, hPL, hPIO]
          · simp [h1, hL, hPL, hPIO]
  refine ⟨hgen, ?_, ?_, ?_, ?_⟩
  · intro hd
    rw [hgen _ hd]
    decide
  · intro hd
    rw [hgen _ hd]
    decide
  · intro hd
    rw [hgen _ hd]
    decide
  · intro s hd hno
    rw [hgen _ hd]
    unfold specRuleApplies at hno
    simp only [Bool.or_eq_false_iff] at hno
    obtain ⟨⟨⟨⟨⟨⟨⟨⟨⟨⟨⟨⟨hA, hB⟩, hC⟩, hD⟩, hE⟩, hF⟩, hG⟩, hH⟩, hI⟩, hJ⟩, hK⟩, hM⟩, hN⟩ := hno
    unfold specWaitClassify
    simp [hA, hB, hC, hD, hE, hF, hG, hH, hI, hJ, hK, hM, hN]

/-- Witness for `getWaitCategory_matches_spec` with an empty detailed
table. -/
theorem getWaitCategory_matches_spec_witness :
    getWaitCategory (fun _ => none) (fun _ => "") "PAGEIOLATCH_SH"
      = (6, "Buffer IO") ∧
    getWaitCategory (fun _ => none) (fun _ => "") "HADR_THROTTLE_LOG_RATE_GOVERNOR"
      = (0, "Unknown") ∧
    getWaitCategory (fun _ => none) (fun _ => "") "HADR_SYNC_COMMIT"
      = (22, "Replication") :=
  ⟨(getWaitCategory_matches_spec (fun _ => none) (fun _ => "")).2.1 rfl,
   (getWaitCategory_matches_spec (fun _ => none) (fun _ => "")).2.2.1 rfl,
   (getWaitCategory_matches_spec (fun _ => none) (fun _ => "")).2.2.2.1 rfl⟩

/-! ## Scrape dispatch (C9)

`ScrapeMetrics` / `ScrapeLogs`, variant V1 (scraper.go lines 106-134).
The switch compares the configured `s.sqlQuery` against the catalog
outputs for the configured instance name
(`getSQLServerDatabaseIOQuery(s.instanceName)` and so on).  The catalog
texts do not influence the dispatch logic beyond string equality, so they
enter the model as the parameters `ioQ`, `perfQ`, `propsQ`, `textPlanQ`;
likewise the outcome of each record function (`recordDatabaseIOMetrics`
etc.) is a parameter, as is the batch `s.mb.Emit()` would produce. -/

/-- Errors surfaced by the scraper dispatch. -/
inductive GoErr where
  | unsupportedMetricsQuery (q : String)
  | unsupportedLogsQuery (q : String)
  | scrapeFailure (msg : String)
deriving DecidableEq

/-- Minimal model of a `pmetric.Metrics` batch; `pmetric.Metrics{}` is the
empty value. -/
structure PMetrics where
  points : List (String × Int)
deriving DecidableEq

def PMetrics.empty : PMetrics := ⟨[]⟩

/-- Minimal model of a `plog.Logs` batch; `plog.Logs{}` is the empty
value. -/
structure PLogs where
  records : List (List (String × String))
deriving DecidableEq

def PLogs.empty : PLogs := ⟨[]⟩

/-- The tail of `ScrapeMetrics`: `if err != nil { return pmetric.Metrics{},
err }; return s.mb.Emit(), nil`. -/
def scrapeFinish (r : Option GoErr) (emitted : PMetrics) : PMetrics × Option GoErr :=
  match r with
  | some e => (PMetrics.empty, some e)
  | none => (emitted, none)

/-- `ScrapeMetrics`, variant V1 (scraper.go lines 106-125). -/
def scrapeMetricsV1 (ioQ perfQ propsQ : String) (q : String)
    (rio rperf rprops : Option GoErr) (emitted : PMetrics) :
    PMetrics × Option GoErr :=
  if q = ioQ then scrapeFinish rio emitted
  else if q = perfQ then scrapeFinish rperf emitted
  else if q = propsQ then scrapeFinish rprops emitted
  else (PMetrics.empty, some (GoErr.unsupportedMetricsQuery q))

/-- `ScrapeLogs`, variant V1 (scraper.go lines 127-134): the single
supported log kind returns the QueryTextAndPlan mapper's result
unchanged. -/
def scrapeLogsV1 (textPlanQ : String) (q : String)
    (handler : PLogs × Option GoErr) : PLogs × Option GoErr :=
  if q = textPlanQ then handler
  else (PLogs.empty, some (GoErr.unsupportedLogsQuery q))

/-- **C9.**  A configured `sqlQuery` that is not byte-identical to any
supported metric-kind catalog output makes `ScrapeMetrics` return the
empty metrics value and a non-nil error; a `sqlQuery` not matching the
supported log-kind catalog output makes `ScrapeLogs` return the empty
logs value and a non-nil error. -/
theorem scrape_dispatch_unsupported_error
    (ioQ perfQ propsQ textPlanQ q q' : String)
    (rio rperf rprops : Option GoErr) (emitted : PMetrics)
    (handler : PLogs × Option GoErr)
    (h1 : q ≠ ioQ) (h2 : q ≠ perfQ) (h3 : q ≠ propsQ)
    (h4 : q' ≠ textPlanQ) :
    scrapeMetricsV1 ioQ perfQ propsQ q rio rperf rprops emitted
      = (PMetrics.empty, some (GoErr.unsupportedMetricsQuery q)) ∧
    scrapeLogsV1 textPlanQ q' handler
      = (PLogs.empty, some (GoErr.unsupportedLogsQuery q')) := by
  unfold scrapeMetricsV1 scrapeLogsV1
  rw [if_neg h1, if_neg h2, if_neg h3, if_neg h4]
  exact ⟨rfl, rfl⟩

/-- Witness for `scrape_dispatch_unsupported_error` at concrete inputs. -/
theorem scrape_dispatch_unsupported_error_witness :
    scrapeMetricsV1 "SELECT io" "SELECT perf" "SELECT props" "SELECT other"
        none none none PMetrics.empty
      = (PMetrics.empty, some (GoErr.unsupportedMetricsQuery "SELECT other")) ∧
    scrapeLogsV1 "SELECT textplan" "SELECT other" (PLogs.empty, none)
      = (PLogs.empty, some (GoErr.unsupportedLogsQuery "SELECT other")) :=
  scrape_dispatch_unsupported_error "SELECT io" "SELECT perf" "SELECT props"
    "SELECT textplan" "SELECT other" "SELECT other" none none none
    PMetrics.empty (PLogs.empty, none)
    (by decide) (by decide) (by decide) (by decide)

/-! ## XML plan obfuscation (C8)

`obfuscateXMLPlan` (scraper.go lines 500-560; the exported copy at lines
1449-1508 is identical) streams the plan through Go's `encoding/xml`
decoder and re-encodes every token: on a `StartElement` every attribute
whose local name is one of the four `XMLPlanObfuscationAttrs` has its
value replaced by the SQL obfuscator's output (an obfuscation failure is
only logged; the returned value is stored regardless), `CharData` is
whitespace-trimmed, and every other token is re-emitted verbatim.  The
model works on the token stream the decoder produces: "identity modulo
canonical XML re-serialization" is token-stream identity, since the
encoder output is determined by the token stream.  The transformation is
total on token streams; decode errors (malformed XML) are outside the
token-level model. -/

/-- One `encoding/xml` token (names abbreviated to their local parts; the
source matches attributes by `Name.Local` only). -/
inductive XmlToken where
  | startElem (name : String) (attrs : List (String × String))
  | endElem (name : String)
  | charData (text : String)
  | comment (text : String)
  | procInst (target inst : String)
  | directive (text : String)
deriving DecidableEq

/-- `XMLPlanObfuscationAttrs` (scraper.go lines 493-498). -/
def XMLPlanObfuscationAttrs : List String :=
  ["StatementText", "ConstValue", "ScalarString", "ParameterCompiledValue"]

/-- The per-token rewriting of `obfuscateXMLPlan`'s loop, parameterized by
the external SQL obfuscator. -/
def obfuscateXMLPlanTokens (obf : String → String) (ts : List XmlToken) :
    List XmlToken :=
  ts.map fun t =>
    match t with
    | .startElem n attrs =>
      .startElem n (attrs.map fun a =>
        if XMLPlanObfuscationAttrs.contains a.1 then (a.1, obf a.2) else a)
    | .charData s => .charData (goTrimSpace s)
    | t => t

/-- Whether a token carries one of the four targeted attribute names. -/
def hasTargetedAttr : XmlToken → Bool
  | .startElem _ attrs => attrs.any fun a => XMLPlanObfuscationAttrs.contains a.1
  | _ => false

/-- Whether a token is whitespace-only character data. -/
def wsOnlyCharData : XmlToken → Bool
  | .charData s => goTrimSpace s == ""
  | _ => false

/-- Whether a character-data token is already whitespace-trimmed. -/
def trimmedCharData : XmlToken → Bool
  | .charData s => goTrimSpace s == s
  | _ => true

theorem map_eq_self_of_eq {β : Type} {f : β → β} :
    ∀ {l : List β}, (∀ a ∈ l, f a = a) → l.map f = l := by
  intro l
  induction l with
  | nil => intro _; rfl
  | cons a l ih =>
    intro h
    simp only [List.map_cons]
    rw [h a (by simp), ih fun b hb => h b (by simp [hb])]

/-- **C8 (amended).**  For every token stream with none of the four
targeted attribute names and with every character-data node already
whitespace-trimmed, `obfuscateXMLPlan` is the identity on the token
stream (hence the identity modulo canonical XML re-serialization), for
every SQL obfuscator, with no error. -/
theorem obfuscateXMLPlan_token_identity (obf : String → String)
    (ts : List XmlToken)
    (hattr : ∀ t ∈ ts, hasTargetedAttr t = false)
    (htrim : ∀ t ∈ ts, trimmedCharData t = true) :
    obfuscateXMLPlanTokens obf ts = ts := by
  unfold obfuscateXMLPlanTokens
  refine map_eq_self_of_eq ?_
  intro t ht
  have ha := hattr t ht
  have hc := htrim t ht
  cases t with
  | startElem n attrs =>
    simp only
    congr 1
    refine map_eq_self_of_eq ?_
    intro a hmem
    unfold hasTargetedAttr at ha
    rw [if_neg ?_]
    intro hcont
    rw [List.any_eq_false] at ha
    exact absurd hcont (by simpa using ha a hmem)
  | charData s =>
    unfold trimmedCharData at hc
    simp only
    rw [show goTrimSpace s = s from by simpa using hc]
  | endElem n => rfl
  | comment s => rfl
  | procInst t i => rfl
  | directive s => rfl

/-- Witness for `obfuscateXMLPlan_token_identity` at a concrete plan. -/
theorem obfuscateXMLPlan_token_identity_witness :
    obfuscateXMLPlanTokens (fun _ => "?")
        [.startElem "ShowPlanXML" [("Version", "1.564")],
         .charData "RelOp", .endElem "ShowPlanXML"]
      = [.startElem "ShowPlanXML" [("Version", "1.564")],
         .charData "RelOp", .endElem "ShowPlanXML"] :=
  obfuscateXMLPlan_token_identity (fun _ => "?")
    [.startElem "ShowPlanXML" [("Version", "1.564")],
     .charData "RelOp", .endElem "ShowPlanXML"]
    (by decide) (by decide)

/-- **C8 (counterexample).**  A plan with no targeted attributes and no
whitespace-only character data, but character data carrying edge
whitespace: the claim predicts identity modulo re-serialization, yet
`obfuscateXMLPlan` trims the character data, changing the document. -/
theorem obfuscateXMLPlan_edge_whitespace_counterexample :
    (∀ t ∈ ([XmlToken.startElem "ShowPlanXML" [],
             XmlToken.charData " SELECT 1 ",
             XmlToken.endElem "ShowPlanXML"] : List XmlToken),
        hasTargetedAttr t = false) ∧
    (∀ t ∈ ([XmlToken.startElem "ShowPlanXML" [],
             XmlToken.charData " SELECT 1 ",
             XmlToken.endElem "ShowPlanXML"] : List XmlToken),
        wsOnlyCharData t = false) ∧
    obfuscateXMLPlanTokens (fun s => s)
        [.startElem "ShowPlanXML" [], .charData " SELECT 1 ",
         .endElem "ShowPlanXML"]
      = [.startElem "ShowPlanXML" [], .charData "SELECT 1",
         .endElem "ShowPlanXML"] ∧
    obfuscateXMLPlanTokens (fun s => s)
        [.startElem "ShowPlanXML" [], .charData " SELECT 1 ",
         .endElem "ShowPlanXML"]
      ≠ [.startElem "ShowPlanXML" [], .charData " SELECT 1 ",
         .endElem "ShowPlanXML"] := by
  refine ⟨by decide, by decide, by decide, by decide⟩

/-! ## Rows, records and the ranked mappers (C2-C5)

`sqlquery.StringMap` rows are string-keyed maps whose absent columns read
as the empty string (the Go map zero value).  Log-record attribute maps
(`record.Attributes()`, with `PutStr`/`PutInt`/`PutDouble` upserts) are
modelled as association lists. -/

abbrev Row := List (String × String)

def Row.get (r : Row) (k : String) : String :=
  ((r.find? fun e => e.1 == k).map (·.2)).getD ""

/-- A pdata attribute value. -/
inductive AttrVal where
  | str (s : String)
  | int (i : Int)
  | dbl (q : ℚ)
deriving DecidableEq

abbrev RecordAttrs := List (String × AttrVal)

/-- `record.Attributes().Put*`: upsert. -/
def putAttr (r : RecordAttrs) (k : String) (v : AttrVal) : RecordAttrs :=
  if r.any fun e => e.1 == k then
    r.map fun e => if e.1 == k then (k, v) else e
  else r ++ [(k, v)]

def getAttr (r : RecordAttrs) (k : String) : Option AttrVal :=
  (r.find? fun e => e.1 == k).map (·.2)

def hasAttr (r : RecordAttrs) (k : String) : Bool :=
  (getAttr r k).isSome

/-- Collected per-row errors (the Go error strings are abstracted to the
failing operation). -/
inductive ScrapeErr where
  | parse (column : String)
  | obfSQL
  | obfPlan
deriving DecidableEq

theorem find?_cons_pos' {α : Type} {e : String × α} {l : List (String × α)}
    {k : String} (h : (e.1 == k) = true) :
    ((e :: l).find? fun x => x.1 == k) = some e := by
  rw [List.find?_cons, h]

theorem find?_cons_neg' {α : Type} {e : String × α} {l : List (String × α)}
    {k : String} (h : (e.1 == k) = false) :
    ((e :: l).find? fun x => x.1 == k) = l.find? fun x => x.1 == k := by
  rw [List.find?_cons, h]

theorem find?_putAttr_self (r : RecordAttrs) (k : String) (v : AttrVal) :
    (putAttr r k v).find? (fun e => e.1 == k) = some (k, v) := by
  unfold putAttr
  by_cases hp : (r.any fun e => e.1 == k) = true
  · rw [if_pos hp]
    induction r with
    | nil => simp at hp
    | cons e es ih =>
      rw [List.map_cons]
      by_cases hek : (e.1 == k) = true
      · rw [if_pos hek]
        exact find?_cons_pos' (by simp)
      · rw [if_neg hek, find?_cons_neg' (by simpa using hek)]
        apply ih
        simp only [List.any_cons, hek, Bool.false_or] at hp
        exact hp
  · rw [if_neg hp, List.find?_append]
    have hnone : r.find? (fun e => e.1 == k) = none := by
      rw [List.find?_eq_none]
      intro x hx
      rw [Bool.not_eq_true, List.any_eq_false] at hp
      simpa using hp x hx
    rw [hnone]
    simp only [Option.none_or]
    exact find?_cons_pos' (by simp)

theorem find?_putAttr_ne (r : RecordAttrs) {k k' : String} (v : AttrVal)
    (h : k' ≠ k) :
    (putAttr r k v).find? (fun e => e.1 == k')
      = r.find? (fun e => e.1 == k') := by
  unfold putAttr
  by_cases hp : (r.any fun e => e.1 == k) = true
  · rw [if_pos hp]
    clear hp
    induction r with
    | nil => rfl
    | cons e es ih =>
      rw [List.map_cons]
      by_cases hek : (e.1 == k) = true
      · have hek' : (e.1 == k') = false := by
          simp only [beq_iff_eq] at hek
          rw [hek]
          exact beq_eq_false_iff_ne.mpr (Ne.symm h)
        rw [if_pos hek, find?_cons_neg' (beq_eq_false_iff_ne.mpr (Ne.symm h)), ih,
          find?_cons_neg' hek']
      · rw [if_neg hek]
        by_cases hek' : (e.1 == k') = true
        · rw [find?_cons_pos' hek', find?_cons_pos' hek']
        · rw [find?_cons_neg' (by simpa using hek'),
            find?_cons_neg' (by simpa using hek'), ih]
  · rw [if_neg hp, List.find?_append]
    have hlast : ([(k, v)].find? fun e => e.1 == k') = none := by
      rw [find?_cons_neg' (beq_eq_false_iff_ne.mpr (Ne.symm h))]
      rfl
    rw [hlast]
    cases hf : r.find? (fun e => e.1 == k') <;> simp [hf]

theorem getAttr_putAttr_self (r : RecordAttrs) (k : String) (v : AttrVal) :
    getAttr (putAttr r k v) k = some v := by
  unfold getAttr
  rw [find?_putAttr_self]
  rfl

theorem getAttr_putAttr_ne (r : RecordAttrs) {k k' : String} (v : AttrVal)
    (h : k' ≠ k) : getAttr (putAttr r k v) k' = getAttr r k' := by
  unfold getAttr
  rw [find?_putAttr_ne r v h]

theorem hasAttr_putAttr_self (r : RecordAttrs) (k : String) (v : AttrVal) :
    hasAttr (putAttr r k v) k = true := by
  unfold hasAttr
  rw [getAttr_putAttr_self]
  rfl

theorem hasAttr_putAttr_ne (r : RecordAttrs) {k k' : String} (v : AttrVal)
    (h : k' ≠ k) : hasAttr (putAttr r k v) k' = hasAttr r k' := by
  unfold hasAttr
  rw [getAttr_putAttr_ne r v h]

theorem getAttr_nil (k : String) : getAttr [] k = none := rfl

theorem hasAttr_nil (k : String) : hasAttr [] k = false := rfl

/-! ## sortRows and the elapsed-time diff phase

`sortRows` (scraper.go lines 590-609, part_004 lines 873-892) sorts an
index slice with `sort.Slice` (comparator
`values[indices[i]] > values[indices[j]]`) and gathers the rows by the
sorted indices; a second `sort.Slice` call sorts the diff array itself in
descending order.  Go's `sort.Slice` is an external comparison sort that
is documented *not* to be stable; it enters the model as the parameters
`sortIdx` / `sortInts`, constrained in the theorems only by the documented
postcondition (a permutation, ordered descending).  `insertIdxDesc` /
`intSortDesc` below are concrete instantiations satisfying that contract,
used to evaluate the model on concrete inputs. -/

def sortRowsWith (sortIdx : List Int → List Nat) (rows : List Row)
    (values : List Int) : List Row :=
  (sortIdx values).map fun i => rows.getD i []

/-- Insertion step of a concrete descending index sort. -/
def insertIdxDesc (key : Nat → Int) (i : Nat) : List Nat → List Nat
  | [] => [i]
  | j :: js => if key i > key j then i :: j :: js else j :: insertIdxDesc key i js

/-- A concrete `sortIdx` satisfying `sort.Slice`'s documented contract. -/
def idxSortDesc (values : List Int) : List Nat :=
  (List.range values.length).foldr
    (fun i acc => insertIdxDesc (fun j => values.getD j 0) i acc) []

/-- Insertion step of a concrete descending value sort. -/
def insertDesc (v : Int) : List Int → List Int
  | [] => [v]
  | w :: ws => if v > w then v :: w :: ws else w :: insertDesc v ws

/-- A concrete `sortInts` satisfying `sort.Slice`'s documented contract. -/
def intSortDesc (values : List Int) : List Int :=
  values.foldr insertDesc []

/-- Phase 1 of `recordDatabaseQueryTextAndPlan`, variant V1 (scraper.go
lines 358-372): per row, hex-encode the hashes, parse
`total_elapsed_time` (a parse failure is only logged), convert µs→ms with
integer division, and record the diff when `cacheAndDiff` reports a cached
key with a strictly positive diff; otherwise the row's entry stays 0. -/
def elapsedStepV1 (acc : Option (LRU Int) × List Int) (row : Row) :
    Option (LRU Int) × List Int :=
  let queryHashVal := hexEncode (row.get "query_hash")
  let queryPlanHashVal := hexEncode (row.get "query_plan_hash")
  match goParseInt (row.get "total_elapsed_time") with
  | none => (acc.1, acc.2 ++ [0])
  | some elapsedTime =>
    let r := cacheAndDiff acc.1 queryHashVal queryPlanHashVal
      "total_elapsed_time" (Int.tdiv elapsedTime 1000)
    (r.1, acc.2 ++ [if r.2.1 && decide (0 < r.2.2) then r.2.2 else 0])

def elapsedDiffsV1 (c : Option (LRU Int)) (rows : List Row) :
    Option (LRU Int) × List Int :=
  rows.foldl elapsedStepV1 (c, [])

/-- Phase 1 of variant P4 (part_004 lines 506-521): as in V1, except a
parse failure is also appended to the collected errors. -/
def elapsedDiffsP4 (c : Option (LRU Int)) (rows : List Row) :
    Option (LRU Int) × List Int × List ScrapeErr :=
  rows.foldl
    (fun acc row =>
      let queryHashVal := hexEncode (row.get "query_hash")
      let queryPlanHashVal := hexEncode (row.get "query_plan_hash")
      match goParseInt (row.get "total_elapsed_time") with
      | none => (acc.1, acc.2.1 ++ [0], acc.2.2 ++ [ScrapeErr.parse "total_elapsed_time"])
      | some elapsedTime =>
        let r := cacheAndDiff acc.1 queryHashVal queryPlanHashVal
          "total_elapsed_time" (Int.tdiv elapsedTime 1000)
        (r.1, acc.2.1 ++ [if r.2.1 && decide (0 < r.2.2) then r.2.2 else 0], acc.2.2))
    (c, [], [])

/-- Phase 1 of variant V2 (scraper.go lines 1111-1125): float64 values,
`total_elapsed_time` passed in µs without conversion, and — the point of
claim C4 — the plan component of the cache key is hex-encoded from the
row's `query_plan_handle` column (line 1115), not from `query_plan_hash`. -/
def elapsedDiffsV2 (c : Option (LRU ℚ)) (rows : List Row) :
    Option (LRU ℚ) × List Int :=
  rows.foldl
    (fun acc row =>
      let queryHashVal := hexEncode (row.get "query_hash")
      let queryPlanHashVal := hexEncode (row.get "query_plan_handle")
      match goParseFloatQ (row.get "total_elapsed_time") with
      | none => (acc.1, acc.2 ++ [0])
      | some elapsedTime =>
        let r := cacheAndDiffF acc.1 queryHashVal queryPlanHashVal
          "total_elapsed_time" elapsedTime
        (r.1, acc.2 ++ [if r.2.1 && decide (0 < r.2.2) then ratTruncToInt r.2.2 else 0]))
    (c, [])

/-- The `query_plan_hash` attribute value the V2 emission loop stores on a
record (scraper.go line 1146): hex-encoded from the `query_plan_hash`
column. -/
def emittedQueryPlanHashV2 (row : Row) : String :=
  hexEncode (row.get "query_plan_hash")

/-! ## Row processors of the QueryTextAndPlan mappers -/

/-- State threaded through one row's record construction: the attributes
built so far, the cache, and the collected errors. -/
abbrev RowState := RecordAttrs × Option (LRU Int) × List ScrapeErr

/-- One secondary counter column of variant V1 where Go calls
`cacheAndDiff` even on a parse failure (the parsed variable keeps its zero
value): `total_rows`, `total_logical_reads`, `total_logical_writes`,
`total_physical_reads` (scraper.go lines 408-442).  The attribute is set
only when the key was cached with a strictly positive diff. -/
def counterAlwaysV1 (st : RowState) (qh ph col raw : String) : RowState :=
  let p := goParseInt raw
  let errs := st.2.2 ++ (if p.isNone then [ScrapeErr.parse col] else [])
  let r := cacheAndDiff st.2.1 qh ph col (p.getD 0)
  (if r.2.1 && decide (0 < r.2.2) then putAttr st.1 col (.int r.2.2) else st.1,
   r.1, errs)

/-- One secondary counter column of variant V1 where `cacheAndDiff` runs
only on parse success: `execution_count`, `total_worker_time` (first
divided by 1000, µs→ms), `total_grant_kb` (scraper.go lines 444-472). -/
def counterIfParsedV1 (st : RowState) (qh ph col raw : String)
    (scale : Int → Int) : RowState :=
  match goParseInt raw with
  | none => (st.1, st.2.1, st.2.2 ++ [ScrapeErr.parse col])
  | some v =>
    let r := cacheAndDiff st.2.1 qh ph col (scale v)
    (if r.2.1 && decide (0 < r.2.2) then putAttr st.1 col (.int r.2.2) else st.1,
     r.1, st.2.2)

/-- Variant P4's counterpart of `counterAlwaysV1` (part_004 lines
561-599): the attribute (under the `db.` prefix) is set whenever the key
was cached, including a zero diff. -/
def counterAlwaysP4 (st : RowState) (qh ph col raw : String) : RowState :=
  let p := goParseInt raw
  let errs := st.2.2 ++ (if p.isNone then [ScrapeErr.parse col] else [])
  let r := cacheAndDiff st.2.1 qh ph col (p.getD 0)
  (if r.2.1 then putAttr st.1 ("db." ++ col) (.int r.2.2) else st.1, r.1, errs)

/-- Variant P4's counterpart of `counterIfParsedV1` (part_004 lines
601-632): attribute set whenever cached. -/
def counterIfParsedP4 (st : RowState) (qh ph col raw : String)
    (scale : Int → Int) : RowState :=
  match goParseInt raw with
  | none => (st.1, st.2.1, st.2.2 ++ [ScrapeErr.parse col])
  | some v =>
    let r := cacheAndDiff st.2.1 qh ph col (scale v)
    (if r.2.1 then putAttr st.1 ("db." ++ col) (.int r.2.2) else st.1, r.1, st.2.2)

/-- The body of variant V1's emission loop for one emitted row
(scraper.go lines 392-487).  `obfSQL`/`obfPlan` are the external
obfuscators: they return the value stored on the record and whether they
errored (the value is stored regardless, as in the source). -/
def processRowV1 (obfSQL obfPlan : String → String × Bool)
    (c : Option (LRU Int)) (row : Row) (elapsedDiff : Int) : RowState :=
  let qh := hexEncode (row.get "query_hash")
  let ph := hexEncode (row.get "query_plan_hash")
  let a0 := putAttr (putAttr (putAttr (putAttr []
    "computer_name" (.str (row.get "computer_name")))
    "sql_instance" (.str (row.get "sql_instance")))
    "query_hash" (.str qh))
    "query_plan_hash" (.str ph)
  let a1 := putAttr a0 "total_elapsed_time" (.int elapsedDiff)
  let s1 := counterAlwaysV1 (a1, c, []) qh ph "total_rows" (row.get "total_rows")
  let s2 := counterAlwaysV1 s1 qh ph "total_logical_reads" (row.get "total_logical_reads")
  let s3 := counterAlwaysV1 s2 qh ph "total_logical_writes" (row.get "total_logical_writes")
  let s4 := counterAlwaysV1 s3 qh ph "total_physical_reads" (row.get "total_physical_reads")
  let s5 := counterIfParsedV1 s4 qh ph "execution_count" (row.get "execution_count") (fun v => v)
  let s6 := counterIfParsedV1 s5 qh ph "total_worker_time" (row.get "total_worker_time")
    (fun v => Int.tdiv v 1000)
  let s7 := counterIfParsedV1 s6 qh ph "total_grant_kb" (row.get "total_grant_kb") (fun v => v)
  let ob := obfSQL (row.get "text")
  let a8 := putAttr s7.1 "query_text" (.str ob.1)
  let e8 := s7.2.2 ++ (if ob.2 then [ScrapeErr.obfSQL] else [])
  let op := obfPlan (row.get "query_plan")
  let a9 := putAttr a8 "normalized_query_plan" (.str op.1)
  (a9, s7.2.1, e8 ++ (if op.2 then [ScrapeErr.obfPlan] else []))

/-- The body of variant P4's emission loop for one processed row
(part_004 lines 544-649): `db.`-prefixed attribute keys, query text taken
from the `query_text` column, and the obfuscated plan stored under
`db.query_plan`. -/
def processRowP4 (obfSQL obfPlan : String → String × Bool)
    (c : Option (LRU Int)) (row : Row) (elapsedDiff : Int) : RowState :=
  let qh := hexEncode (row.get "query_hash")
  let ph := hexEncode (row.get "query_plan_hash")
  let a0 := putAttr (putAttr (putAttr (putAttr []
    "computer_name" (.str (row.get "computer_name")))
    "sql_instance" (.str (row.get "sql_instance")))
    "db.query_hash" (.str qh))
    "db.query_plan_hash" (.str ph)
  let a1 := putAttr a0 "db.total_elapsed_time" (.int elapsedDiff)
  let s1 := counterAlwaysP4 (a1, c, []) qh ph "total_rows" (row.get "total_rows")
  let s2 := counterAlwaysP4 s1 qh ph "total_logical_reads" (row.get "total_logical_reads")
  let s3 := counterAlwaysP4 s2 qh ph "total_logical_writes" (row.get "total_logical_writes")
  let s4 := counterAlwaysP4 s3 qh ph "total_physical_reads" (row.get "total_physical_reads")
  let s5 := counterIfParsedP4 s4 qh ph "execution_count" (row.get "execution_count") (fun v => v)
  let s6 := counterIfParsedP4 s5 qh ph "total_worker_time" (row.get "total_worker_time")
    (fun v => Int.tdiv v 1000)
  let s7 := counterIfParsedP4 s6 qh ph "total_grant_kb" (row.get "total_grant_kb") (fun v => v)
  let ob := obfSQL (row.get "query_text")
  let a8 := putAttr s7.1 "db.query_text" (.str ob.1)
  let e8 := s7.2.2 ++ (if ob.2 then [ScrapeErr.obfSQL] else [])
  let op := obfPlan (row.get "query_plan")
  let a9 := putAttr a8 "db.query_plan" (.str op.1)
  (a9, s7.2.1, e8 ++ (if op.2 then [ScrapeErr.obfPlan] else []))

/-! ## The QueryTextAndPlan mappers -/

/-- Output of a ranked log mapper. -/
structure TPOut where
  records : List RecordAttrs
  cache : Option (LRU Int)
  errs : List ScrapeErr
deriving DecidableEq

/-- Variant V1's emission loop (scraper.go lines 382-488): the `break` at
`i >= topQueryCount` limits the loop to the first `topQueryCount` sorted
rows, and a row whose sorted diff entry is 0 is skipped without touching
the record list or the cache. -/
def tpStepV1 (obfSQL obfPlan : String → String × Bool) (acc : TPOut)
    (it : Row × Int) : TPOut :=
  if it.2 = 0 then acc
  else
    let r := processRowV1 obfSQL obfPlan acc.cache it.1 it.2
    ⟨acc.records ++ [r.1], r.2.1, acc.errs ++ r.2.2⟩

def textAndPlanLoopV1 (obfSQL obfPlan : String → String × Bool)
    (c : Option (LRU Int)) (items : List (Row × Int)) : TPOut :=
  items.foldl (tpStepV1 obfSQL obfPlan) ⟨[], c, []⟩

/-- `recordDatabaseQueryTextAndPlan`, variant V1 (scraper.go lines
336-491). -/
def recordDatabaseQueryTextAndPlanV1 (obfSQL obfPlan : String → String × Bool)
    (sortIdx : List Int → List Nat) (sortInts : List Int → List Int)
    (c : Option (LRU Int)) (topQueryCount : Nat) (rows : List Row) : TPOut :=
  let d := elapsedDiffsV1 c rows
  let sortedRows := sortRowsWith sortIdx rows d.2
  let sortedDiffs := sortInts d.2
  textAndPlanLoopV1 obfSQL obfPlan d.1 ((sortedRows.zip sortedDiffs).take topQueryCount)

/-- Variant P4's emission loop (part_004 lines 538-649): rows with index
`i > topQueryCount` are skipped with `continue`, so the first
`topQueryCount + 1` sorted rows are processed — and every processed row
emits a record, with no skip for a zero diff entry. -/
def tpStepP4 (obfSQL obfPlan : String → String × Bool) (acc : TPOut)
    (it : Row × Int) : TPOut :=
  let r := processRowP4 obfSQL obfPlan acc.cache it.1 it.2
  ⟨acc.records ++ [r.1], r.2.1, acc.errs ++ r.2.2⟩

def textAndPlanLoopP4 (obfSQL obfPlan : String → String × Bool)
    (c : Option (LRU Int)) (errs0 : List ScrapeErr) (items : List (Row × Int)) : TPOut :=
  items.foldl (tpStepP4 obfSQL obfPlan) ⟨[], c, errs0⟩

/-- `recordDatabaseQueryTextAndPlan`, variant P4 (part_004 lines
479-652). -/
def recordDatabaseQueryTextAndPlanP4 (obfSQL obfPlan : String → String × Bool)
    (sortIdx : List Int → List Nat) (sortInts : List Int → List Int)
    (c : Option (LRU Int)) (topQueryCount : Nat) (rows : List Row) : TPOut :=
  let d := elapsedDiffsP4 c rows
  let sortedRows := sortRowsWith sortIdx rows d.2.1
  let sortedDiffs := sortInts d.2.1
  textAndPlanLoopP4 obfSQL obfPlan d.1 d.2.2
    ((sortedRows.zip sortedDiffs).take (topQueryCount + 1))

/-! ## The QuerySamples mapper (C5) -/

/-- One emitted sample, identified by its dedup cache key and source row.
The record's attribute payload (some thirty parsed columns) influences
neither the emission decision nor the cache and is omitted from the
model. -/
structure SampleRecord where
  key : String
  row : Row
deriving DecidableEq

/-- `recordDatabaseSampleQuery`, variant V2 (scraper.go lines 1296-1436;
part_004 lines 699-836 has the same cache logic).  Per row:
`cacheKey := hex(query_hash) + "-" + hex(query_plan_hash)`; when
`s.cache.Get(cacheKey)` misses, a record is emitted — and nothing is added
to the cache; when it hits, no record is emitted and the key is re-added
with value 1 (the `if`/`else` in the source). -/
def recordDatabaseSampleQueryV2 (c : LRU ℚ) (rows : List Row) :
    List SampleRecord × LRU ℚ :=
  rows.foldl
    (fun acc row =>
      let queryHashVal := hexEncode (row.get "query_hash")
      let queryPlanHashVal := hexEncode (row.get "query_plan_hash")
      let ck := queryHashVal ++ "-" ++ queryPlanHashVal
      let g := acc.2.get ck
      match g.1 with
      | none => (acc.1 ++ [⟨ck, row⟩], g.2)
      | some _ => (acc.1, (g.2).add ck 1))
    ([], c)

/-- **C4.**  In the V2 QueryTextAndPlan mapper, the plan component of the
cache key is derived from the `query_plan_handle` column (scraper.go line
1115), while the emitted `query_plan_hash` attribute is derived from the
`query_plan_hash` column (line 1146): on a row where the two columns
differ ("B" vs "C"), the elapsed-time diff is cached under the
handle-derived key `hex("A")-hex("C")-total_elapsed_time` and not under
the hash-derived key, while the record attribute is `hex("B")`. -/
theorem planHash_cacheKey_uses_handle_eval :
    elapsedDiffsV2 (some (LRU.ofCap ℚ 100))
        [[("query_hash", "A"), ("query_plan_hash", "B"),
          ("query_plan_handle", "C"), ("total_elapsed_time", "5000")]]
      = (some ⟨[("41-43-total_elapsed_time", 5000)], 100⟩, [0]) ∧
    LRU.lookup (⟨[("41-43-total_elapsed_time", 5000)], 100⟩ : LRU ℚ)
        (cacheKey "41" "42" "total_elapsed_time") = none ∧
    emittedQueryPlanHashV2
        [("query_hash", "A"), ("query_plan_hash", "B"),
         ("query_plan_handle", "C"), ("total_elapsed_time", "5000")] = "42" ∧
    hexEncode "B" = "42" ∧ hexEncode "C" = "43" := by
  refine ⟨by decide, by decide, by decide, by decide, by decide⟩

/-- **C5.**  The QuerySamples deduplication (scraper.go lines 1388-1435)
never records a key on emission: two rows with the same
`query_hash`/`query_plan_hash` in one scrape both emit a sample, and the
dedup key (`hex("a")-hex("b") = "61-62"`) is still absent from the cache
afterwards — the `Add` sits in the `else` branch, which only runs when the
key is already present.  The claim (and spec §4.5.6) requires the second
row not to be emitted. -/
theorem sample_dedup_never_records_eval :
    (recordDatabaseSampleQueryV2 (LRU.ofCap ℚ 100)
        [[("query_hash", "a"), ("query_plan_hash", "b")],
         [("query_hash", "a"), ("query_plan_hash", "b")]]).1.length = 2 ∧
    ((recordDatabaseSampleQueryV2 (LRU.ofCap ℚ 100)
        [[("query_hash", "a"), ("query_plan_hash", "b")],
         [("query_hash", "a"), ("query_plan_hash", "b")]]).2).lookup "61-62"
      = none := by
  refine ⟨by decide, by decide⟩

/-! ## Emission-count lemmas for the ranked mappers (C2) -/

theorem foldl_tpStepV1_length (obfSQL obfPlan : String → String × Bool) :
    ∀ (items : List (Row × Int)) (acc : TPOut),
      (items.foldl (tpStepV1 obfSQL obfPlan) acc).records.length
        = acc.records.length + items.countP (fun it => !decide (it.2 = 0)) := by
  intro items
  induction items with
  | nil => intro acc; simp [List.countP_nil]
  | cons it its ih =>
    intro acc
    rw [List.foldl_cons, ih, List.countP_cons]
    by_cases h : it.2 = 0
    · have hstep : tpStepV1 obfSQL obfPlan acc it = acc := by
        unfold tpStepV1
        rw [if_pos h]
      rw [hstep]
      simp [h]
    · have hstep : (tpStepV1 obfSQL obfPlan acc it).records.length
          = acc.records.length + 1 := by
        unfold tpStepV1
        rw [if_neg h]
        simp
      rw [hstep]
      simp [h]
      omega

theorem foldl_tpStepP4_length (obfSQL obfPlan : String → String × Bool) :
    ∀ (items : List (Row × Int)) (acc : TPOut),
      (items.foldl (tpStepP4 obfSQL obfPlan) acc).records.length
        = acc.records.length + items.length := by
  intro items
  induction items with
  | nil => intro acc; simp
  | cons it its ih =>
    intro acc
    rw [List.foldl_cons, ih]
    have hstep : (tpStepP4 obfSQL obfPlan acc it).records.length
        = acc.records.length + 1 := by
      unfold tpStepP4
      simp
    rw [hstep, List.length_cons]
    omega

theorem countP_zip_snd_le (p : Int → Bool) :
    ∀ (A : List Row) (B : List Int),
      (A.zip B).countP (fun it => p it.2) ≤ B.countP p := by
  intro A
  induction A with
  | nil => intro B; simp [List.countP_nil]
  | cons a as ih =>
    intro B
    cases B with
    | nil => simp [List.countP_nil]
    | cons b bs =>
      rw [List.zip_cons_cons, List.countP_cons, List.countP_cons]
      have := ih bs
      by_cases hp : p b = true
      · simp only [hp]
        simp
        omega
      · simp only [hp]
        simp
        omega

theorem elapsedStepV1_entries (acc : Option (LRU Int) × List Int) (row : Row)
    (h : ∀ d ∈ acc.2, d = 0 ∨ 0 < d) :
    ∀ d ∈ (elapsedStepV1 acc row).2, d = 0 ∨ 0 < d := by
  unfold elapsedStepV1
  cases hp : goParseInt (row.get "total_elapsed_time") with
  | none =>
    intro d hd
    simp only [List.mem_append, List.mem_singleton] at hd
    rcases hd with hd | hd
    · exact h d hd
    · left; exact hd
  | some v =>
    intro d hd
    simp only [List.mem_append, List.mem_singleton] at hd
    rcases hd with hd | hd
    · exact h d hd
    · by_cases hg : ((cacheAndDiff acc.1 (hexEncode (row.get "query_hash"))
          (hexEncode (row.get "query_plan_hash"))
          "total_elapsed_time" (Int.tdiv v 1000)).2.1
          && decide (0 < (cacheAndDiff acc.1 (hexEncode (row.get "query_hash"))
          (hexEncode (row.get "query_plan_hash"))
          "total_elapsed_time" (Int.tdiv v 1000)).2.2)) = true
      · rw [if_pos hg] at hd
        right
        rw [hd]
        have := (Bool.and_eq_true _ _).mp hg
        exact of_decide_eq_true this.2
      · rw [if_neg hg] at hd
        left; exact hd

theorem elapsedDiffsV1_entries (c : Option (LRU Int)) (rows : List Row) :
    ∀ d ∈ (elapsedDiffsV1 c rows).2, d = 0 ∨ 0 < d := by
  unfold elapsedDiffsV1
  have hgen : ∀ (l : List Row) (acc : Option (LRU Int) × List Int),
      (∀ d ∈ acc.2, d = 0 ∨ 0 < d) →
      ∀ d ∈ (l.foldl elapsedStepV1 acc).2, d = 0 ∨ 0 < d := by
    intro l
    induction l with
    | nil => intro acc h; exact h
    | cons row l ih =>
      intro acc h
      rw [List.foldl_cons]
      exact ih _ (elapsedStepV1_entries acc row h)
  exact hgen rows (c, []) (by simp)

/-- **C2 (amended).**  The V1 QueryTextAndPlan mapper (scraper.go lines
380-390; `recordDatabaseQueryMetrics` in part_004 lines 387-397 shares the
same loop head) emits at most `topQueryCount` records and at most as many
records as there are rows whose cached elapsed-time delta is strictly
positive.  The P4 QueryTextAndPlan variant (part_004 lines 538-542)
instead emits one record for every processed row — the first
`topQueryCount + 1` sorted rows (its guard is `i > topQueryCount`),
including rows whose elapsed delta is zero or uncached.  The hypotheses
are `sort.Slice`'s documented postcondition for the diff sort (a
permutation) and the index sort (one index per row). -/
theorem topQuery_emission_bounds
    (obfSQL obfPlan : String → String × Bool)
    (sortIdx : List Int → List Nat) (sortInts : List Int → List Int)
    (c : Option (LRU Int)) (topQueryCount : Nat) (rows : List Row)
    (hperm : List.Perm (sortInts (elapsedDiffsV1 c rows).2) (elapsedDiffsV1 c rows).2)
    (hlenI : (sortIdx (elapsedDiffsP4 c rows).2.1).length = rows.length)
    (hlenS : (sortInts (elapsedDiffsP4 c rows).2.1).length = rows.length) :
    (recordDatabaseQueryTextAndPlanV1 obfSQL obfPlan sortIdx sortInts
        c topQueryCount rows).records.length ≤ topQueryCount ∧
    (recordDatabaseQueryTextAndPlanV1 obfSQL obfPlan sortIdx sortInts
        c topQueryCount rows).records.length
      ≤ (elapsedDiffsV1 c rows).2.countP (fun d => decide (0 < d)) ∧
    (recordDatabaseQueryTextAndPlanP4 obfSQL obfPlan sortIdx sortInts
        c topQueryCount rows).records.length
      = min rows.length (topQueryCount + 1) := by
  have hv1 : (recordDatabaseQueryTextAndPlanV1 obfSQL obfPlan sortIdx sortInts
      c topQueryCount rows).records.length
      = (((sortRowsWith sortIdx rows (elapsedDiffsV1 c rows).2).zip
          (sortInts (elapsedDiffsV1 c rows).2)).take topQueryCount).countP
          (fun it => !decide (it.2 = 0)) := by
    unfold recordDatabaseQueryTextAndPlanV1 textAndPlanLoopV1
    rw [foldl_tpStepV1_length]
    simp
  refine ⟨?_, ?_, ?_⟩
  · rw [hv1]
    calc _ ≤ (((sortRowsWith sortIdx rows (elapsedDiffsV1 c rows).2).zip
          (sortInts (elapsedDiffsV1 c rows).2)).take topQueryCount).length :=
        List.countP_le_length _
    _ ≤ topQueryCount := by
        rw [List.length_take]
        exact min_le_left _ _
  · rw [hv1]
    calc _ ≤ ((sortRowsWith sortIdx rows (elapsedDiffsV1 c rows).2).zip
          (sortInts (elapsedDiffsV1 c rows).2)).countP (fun it => !decide (it.2 = 0)) :=
        List.Sublist.countP_le _ (List.take_sublist _ _)
    _ ≤ (sortInts (elapsedDiffsV1 c rows).2).countP (fun d => !decide (d = 0)) :=
        countP_zip_snd_le (fun d => !decide (d = 0)) _ _
    _ = (elapsedDiffsV1 c rows).2.countP (fun d => !decide (d = 0)) :=
        List.Perm.countP_eq _ hperm
    _ = (elapsedDiffsV1 c rows).2.countP (fun d => decide (0 < d)) := by
        refine List.countP_congr ?_
        intro d hd
        rcases elapsedDiffsV1_entries c rows d hd with h0 | hpos
        · subst h0
          simp
        · constructor
          · intro _
            exact decide_eq_true hpos
          · intro _
            simp only [Bool.not_eq_true', decide_eq_false_iff_not]
            omega
  · unfold recordDatabaseQueryTextAndPlanP4 textAndPlanLoopP4
    rw [foldl_tpStepP4_length]
    simp only [List.length_take, List.length_zip]
    unfold sortRowsWith
    rw [List.length_map, hlenI, hlenS]
    simp [Nat.min_comm]

/-- Witness for `topQuery_emission_bounds` at concrete inputs. -/
theorem topQuery_emission_bounds_witness :
    (recordDatabaseQueryTextAndPlanV1 (fun s => (s, false)) (fun s => (s, false))
        idxSortDesc intSortDesc (some (LRU.ofCap Int 100)) 3
        [[("query_hash", "a"), ("query_plan_hash", "b")]]).records.length ≤ 3 ∧
    (recordDatabaseQueryTextAndPlanV1 (fun s => (s, false)) (fun s => (s, false))
        idxSortDesc intSortDesc (some (LRU.ofCap Int 100)) 3
        [[("query_hash", "a"), ("query_plan_hash", "b")]]).records.length
      ≤ (elapsedDiffsV1 (some (LRU.ofCap Int 100))
          [[("query_hash", "a"), ("query_plan_hash", "b")]]).2.countP
            (fun d => decide (0 < d)) ∧
    (recordDatabaseQueryTextAndPlanP4 (fun s => (s, false)) (fun s => (s, false))
        idxSortDesc intSortDesc (some (LRU.ofCap Int 100)) 3
        [[("query_hash", "a"), ("query_plan_hash", "b")]]).records.length
      = min 1 4 :=
  topQuery_emission_bounds (fun s => (s, false)) (fun s => (s, false))
    idxSortDesc intSortDesc (some (LRU.ofCap Int 100)) 3
    [[("query_hash", "a"), ("query_plan_hash", "b")]]
    (by decide) (by decide) (by decide)

/-- **C2 (counterexample).**  With `topQueryCount = 0` and a single row
whose elapsed-time key is not yet cached (delta 0), the P4
QueryTextAndPlan mapper emits one record — more than `topN = 0` and more
than the number of rows with a strictly positive cached delta (0). -/
theorem p4_topQueryCount_zero_counterexample :
    (recordDatabaseQueryTextAndPlanP4 (fun s => (s, false)) (fun s => (s, false))
        idxSortDesc intSortDesc (some (LRU.ofCap Int 100)) 0
        [[("query_hash", "a"), ("query_plan_hash", "b")]]).records.length = 1 ∧
    (elapsedDiffsP4 (some (LRU.ofCap Int 100))
        [[("query_hash", "a"), ("query_plan_hash", "b")]]).2.1.countP
          (fun d => decide (0 < d)) = 0 := by
  refine ⟨by decide, by decide⟩

/-! ## Attribute-gating lemmas for the QueryTextAndPlan row processors (C3) -/

/-- The P4 emission policy for one counter outcome: attribute present
(with the diff) whenever the key was cached. -/
def emitIfCached (r : Option (LRU Int) × Bool × Int) : Option AttrVal :=
  if r.2.1 = true then some (.int r.2.2) else none

/-- The V1 emission policy: attribute present only when the key was cached
with a strictly positive diff. -/
def emitIfPositive (r : Option (LRU Int) × Bool × Int) : Option AttrVal :=
  if (r.2.1 && decide (0 < r.2.2)) = true then some (.int r.2.2) else none

theorem counterAlwaysP4_attr_ne (st : RowState) (qh ph col raw : String)
    {k : String} (h : k ≠ "db." ++ col) :
    getAttr (counterAlwaysP4 st qh ph col raw).1 k = getAttr st.1 k := by
  simp only [counterAlwaysP4]
  by_cases hg : (cacheAndDiff st.2.1 qh ph col ((goParseInt raw).getD 0)).2.1 = true
  · rw [if_pos hg, getAttr_putAttr_ne _ _ h]
  · rw [if_neg hg]

theorem counterAlwaysP4_attr_self (st : RowState) (qh ph col raw : String)
    {k : String} (hk : k = "db." ++ col)
    (habs : getAttr st.1 k = none) :
    getAttr (counterAlwaysP4 st qh ph col raw).1 k
      = emitIfCached (cacheAndDiff st.2.1 qh ph col ((goParseInt raw).getD 0)) := by
  subst hk
  simp only [counterAlwaysP4, emitIfCached]
  by_cases hg : (cacheAndDiff st.2.1 qh ph col ((goParseInt raw).getD 0)).2.1 = true
  · rw [if_pos hg, if_pos hg, getAttr_putAttr_self]
  · rw [if_neg hg, if_neg hg, habs]

theorem counterIfParsedP4_attr_ne (st : RowState) (qh ph col raw : String)
    (scale : Int → Int) {k : String} (h : k ≠ "db." ++ col) :
    getAttr (counterIfParsedP4 st qh ph col raw scale).1 k = getAttr st.1 k := by
  simp only [counterIfParsedP4]
  cases hp : goParseInt raw with
  | none => rfl
  | some v =>
    simp only
    by_cases hg : (cacheAndDiff st.2.1 qh ph col (scale v)).2.1 = true
    · rw [if_pos hg, getAttr_putAttr_ne _ _ h]
    · rw [if_neg hg]

theorem counterIfParsedP4_attr_self (st : RowState) (qh ph col raw : String)
    (scale : Int → Int) {k : String} (hk : k = "db." ++ col)
    (habs : getAttr st.1 k = none) :
    getAttr (counterIfParsedP4 st qh ph col raw scale).1 k
      = match goParseInt raw with
        | none => none
        | some v => emitIfCached (cacheAndDiff st.2.1 qh ph col (scale v)) := by
  subst hk
  simp only [counterIfParsedP4, emitIfCached]
  cases hp : goParseInt raw with
  | none => exact habs
  | some v =>
    simp only
    by_cases hg : (cacheAndDiff st.2.1 qh ph col (scale v)).2.1 = true
    · rw [if_pos hg, if_pos hg, getAttr_putAttr_self]
    · rw [if_neg hg, if_neg hg, habs]

theorem counterAlwaysV1_attr_ne (st : RowState) (qh ph col raw : String)
    {k : String} (h : k ≠ col) :
    getAttr (counterAlwaysV1 st qh ph col raw).1 k = getAttr st.1 k := by
  simp only [counterAlwaysV1]
  by_cases hg : ((cacheAndDiff st.2.1 qh ph col ((goParseInt raw).getD 0)).2.1
      && decide (0 < (cacheAndDiff st.2.1 qh ph col ((goParseInt raw).getD 0)).2.2)) = true
  · rw [if_pos hg, getAttr_putAttr_ne _ _ h]
  · rw [if_neg hg]

theorem counterAlwaysV1_attr_self (st : RowState) (qh ph col raw : String)
    (habs : getAttr st.1 col = none) :
    getAttr (counterAlwaysV1 st qh ph col raw).1 col
      = emitIfPositive (cacheAndDiff st.2.1 qh ph col ((goParseInt raw).getD 0)) := by
  simp only [counterAlwaysV1, emitIfPositive]
  by_cases hg : ((cacheAndDiff st.2.1 qh ph col ((goParseInt raw).getD 0)).2.1
      && decide (0 < (cacheAndDiff st.2.1 qh ph col ((goParseInt raw).getD 0)).2.2)) = true
  · rw [if_pos hg, if_pos hg, getAttr_putAttr_self]
  · rw [if_neg hg, if_neg hg, habs]

theorem counterIfParsedV1_attr_ne (st : RowState) (qh ph col raw : String)
    (scale : Int → Int) {k : String} (h : k ≠ col) :
    getAttr (counterIfParsedV1 st qh ph col raw scale).1 k = getAttr st.1 k := by
  simp only [counterIfParsedV1]
  cases hp : goParseInt raw with
  | none => rfl
  | some v =>
    simp only
    by_cases hg : ((cacheAndDiff st.2.1 qh ph col (scale v)).2.1
        && decide (0 < (cacheAndDiff st.2.1 qh ph col (scale v)).2.2)) = true
    · rw [if_pos hg, getAttr_putAttr_ne _ _ h]
    · rw [if_neg hg]

theorem counterIfParsedV1_attr_self (st : RowState) (qh ph col raw : String)
    (scale : Int → Int) (habs : getAttr st.1 col = none) :
    getAttr (counterIfParsedV1 st qh ph col raw scale).1 col
      = match goParseInt raw with
        | none => none
        | some v => emitIfPositive (cacheAndDiff st.2.1 qh ph col (scale v)) := by
  simp only [counterIfParsedV1, emitIfPositive]
  cases hp : goParseInt raw with
  | none => exact habs
  | some v =>
    simp only
    by_cases hg : ((cacheAndDiff st.2.1 qh ph col (scale v)).2.1
        && decide (0 < (cacheAndDiff st.2.1 qh ph col (scale v)).2.2)) = true
    · rw [if_pos hg, if_pos hg, getAttr_putAttr_self]
    · rw [if_neg hg, if_neg hg, habs]

/-- **C3 (amended).**  Attribute policy of the QueryTextAndPlan row
processors for the seven secondary counter columns.  In the part_004
variant each attribute (`db.`-prefixed) is set, with the diff as value,
whenever `cacheAndDiff` reports the key cached — including a zero diff —
with `total_worker_time` first divided by 1000 (µs→ms).  In the scraper.go
variant (lines 408-472) the attribute is set only when the key is cached
*and* the diff is strictly positive (again with `total_worker_time`
divided by 1000); a cached key with zero diff does not set the attribute,
contrary to the claim.  (`sN`/`tN` recompute the intermediate caches of
the corresponding processor chain; for the first four columns a parse
failure still runs `cacheAndDiff` on the Go zero value, for the last
three it skips the column.) -/
theorem textAndPlan_secondary_attr_policy
    (obfSQL obfPlan : String → String × Bool) (c : Option (LRU Int))
    (row : Row) (d : Int) :
    (let qh := hexEncode (row.get "query_hash")
     let ph := hexEncode (row.get "query_plan_hash")
     let s1 := counterAlwaysP4
       (putAttr (putAttr (putAttr (putAttr (putAttr []
          "computer_name" (.str (row.get "computer_name")))
          "sql_instance" (.str (row.get "sql_instance")))
          "db.query_hash" (.str qh))
          "db.query_plan_hash" (.str ph)) "db.total_elapsed_time" (.int d),
        c, []) qh ph "total_rows" (row.get "total_rows")
     let s2 := counterAlwaysP4 s1 qh ph "total_logical_reads" (row.get "total_logical_reads")
     let s3 := counterAlwaysP4 s2 qh ph "total_logical_writes" (row.get "total_logical_writes")
     let s4 := counterAlwaysP4 s3 qh ph "total_physical_reads" (row.get "total_physical_reads")
     let s5 := counterIfParsedP4 s4 qh ph "execution_count" (row.get "execution_count") (fun v => v)
     let s6 := counterIfParsedP4 s5 qh ph "total_worker_time" (row.get "total_worker_time")
       (fun v => Int.tdiv v 1000)
     let out := processRowP4 obfSQL obfPlan c row d
     getAttr out.1 "db.total_rows"
        = emitIfCached (cacheAndDiff c qh ph "total_rows"
            ((goParseInt (row.get "total_rows")).getD 0)) ∧
     getAttr out.1 "db.total_logical_reads"
        = emitIfCached (cacheAndDiff s1.2.1 qh ph "total_logical_reads"
            ((goParseInt (row.get "total_logical_reads")).getD 0)) ∧
     getAttr out.1 "db.total_logical_writes"
        = emitIfCached (cacheAndDiff s2.2.1 qh ph "total_logical_writes"
            ((goParseInt (row.get "total_logical_writes")).getD 0)) ∧
     getAttr out.1 "db.total_physical_reads"
        = emitIfCached (cacheAndDiff s3.2.1 qh ph "total_physical_reads"
            ((goParseInt (row.get "total_physical_reads")).getD 0)) ∧
     getAttr out.1 "db.execution_count"
        = (match goParseInt (row.get "execution_count") with
           | none => none
           | some v => emitIfCached (cacheAndDiff s4.2.1 qh ph "execution_count" v)) ∧
     getAttr out.1 "db.total_worker_time"
        = (match goParseInt (row.get "total_worker_time") with
           | none => none
           | some v => emitIfCached (cacheAndDiff s5.2.1 qh ph "total_worker_time"
               (Int.tdiv v 1000))) ∧
     getAttr out.1 "db.total_grant_kb"
        = (match goParseInt (row.get "total_grant_kb") with
           | none => none
           | some v => emitIfCached (cacheAndDiff s6.2.1 qh ph "total_grant_kb" v)))
    ∧
    (let qh := hexEncode (row.get "query_hash")
     let ph := hexEncode (row.get "query_plan_hash")
     let t1 := counterAlwaysV1
       (putAttr (putAttr (putAttr (putAttr (putAttr []
          "computer_name" (.str (row.get "computer_name")))
          "sql_instance" (.str (row.get "sql_instance")))
          "query_hash" (.str qh))
          "query_plan_hash" (.str ph)) "total_elapsed_time" (.int d),
        c, []) qh ph "total_rows" (row.get "total_rows")
     let t2 := counterAlwaysV1 t1 qh ph "total_logical_reads" (row.get "total_logical_reads")
     let t3 := counterAlwaysV1 t2 qh ph "total_logical_writes" (row.get "total_logical_writes")
     let t4 := counterAlwaysV1 t3 qh ph "total_physical_reads" (row.get "total_physical_reads")
     let t5 := counterIfParsedV1 t4 qh ph "execution_count" (row.get "execution_count") (fun v => v)
     let t6 := counterIfParsedV1 t5 qh ph "total_worker_time" (row.get "total_worker_time")
       (fun v => Int.tdiv v 1000)
     let out := processRowV1 obfSQL obfPlan c row d
     getAttr out.1 "total_rows"
        = emitIfPositive (cacheAndDiff c qh ph "total_rows"
            ((goParseInt (row.get "total_rows")).getD 0)) ∧
     getAttr out.1 "total_logical_reads"
        = emitIfPositive (cacheAndDiff t1.2.1 qh ph "total_logical_reads"
            ((goParseInt (row.get "total_logical_reads")).getD 0)) ∧
     getAttr out.1 "total_logical_writes"
        = emitIfPositive (cacheAndDiff t2.2.1 qh ph "total_logical_writes"
            ((goParseInt (row.get "total_logical_writes")).getD 0)) ∧
     getAttr out.1 "total_physical_reads"
        = emitIfPositive (cacheAndDiff t3.2.1 qh ph "total_physical_reads"
            ((goParseInt (row.get "total_physical_reads")).getD 0)) ∧
     getAttr out.1 "execution_count"
        = (match goParseInt (row.get "execution_count") with
           | none => none
           | some v => emitIfPositive (cacheAndDiff t4.2.1 qh ph "execution_count" v)) ∧
     getAttr out.1 "total_worker_time"
        = (match goParseInt (row.get "total_worker_time") with
           | none => none
           | some v => emitIfPositive (cacheAndDiff t5.2.1 qh ph "total_worker_time"
               (Int.tdiv v 1000))) ∧
     getAttr out.1 "total_grant_kb"
        = (match goParseInt (row.get "total_grant_kb") with
           | none => none
           | some v => emitIfPositive (cacheAndDiff t6.2.1 qh ph "total_grant_kb" v))) := by
  dsimp only
  constructor
  · simp only [processRowP4]
    refine ⟨?_, ?_, ?_, ?_, ?_, ?_, ?_⟩ <;>
      simp [counterAlwaysP4_attr_ne, counterAlwaysP4_attr_self,
        counterIfParsedP4_attr_ne, counterIfParsedP4_attr_self,
        getAttr_putAttr_ne, getAttr_putAttr_self, getAttr_nil]
  · simp only [processRowV1]
    refine ⟨?_, ?_, ?_, ?_, ?_, ?_, ?_⟩ <;>
      simp [counterAlwaysV1_attr_ne, counterAlwaysV1_attr_self,
        counterIfParsedV1_attr_ne, counterIfParsedV1_attr_self,
        getAttr_putAttr_ne, getAttr_putAttr_self, getAttr_nil]

/-- **C3 (counterexample).**  In the scraper.go QueryTextAndPlan mapper
(lines 408-472), a second observation with an unchanged value
(`total_rows = 7`, already cached as 7 under
`hex("h")-hex("p")-total_rows = "68-70-total_rows"`) reports the key as
cached with a zero delta, yet the record attribute is *not* set — the
claim predicts it is set whenever cached. -/
theorem v1_cached_zero_diff_counterexample :
    (cacheAndDiff (some (⟨[("68-70-total_rows", 7)], 100⟩ : LRU Int))
        (hexEncode "h") (hexEncode "p") "total_rows" 7).2 = (true, 0) ∧
    goParseInt "7" = some 7 ∧
    hasAttr (processRowV1 (fun s => (s, false)) (fun s => (s, false))
        (some (⟨[("68-70-total_rows", 7)], 100⟩ : LRU Int))
        [("query_hash", "h"), ("query_plan_hash", "p"), ("total_rows", "7")] 5).1
      "total_rows" = false := by
  refine ⟨by decide, by decide, by decide⟩

end SqlServer
